import Mathlib

/-!
Shallow embedding of `src/server.js` (deeptankio), the authoritative
multiplayer arena simulator.  JavaScript numbers are modelled as exact
rationals (`ℚ`); the transcendental library calls (`Math.hypot`, `Math.cos`,
`Math.sin`, `Math.atan2`, `Math.PI`) and the random draws (`Math.random`,
clock reads) are supplied by an explicit oracle environment `Env`, so every
definition stays executable.  Theorems that depend on a transcendental value
carry a pointwise correctness hypothesis for the oracle at the points where
the code evaluates it.
-/

namespace DeepTank

attribute [local semireducible] Rat.mul Rat.add Rat.sub Rat.inv Rat.ofScientific

/-- World width constant `WORLD_W` (server.js line 16). -/
def WORLD_W : ℚ := 3000

/-- World height constant `WORLD_H` (server.js line 16). -/
def WORLD_H : ℚ := 2000

/-- JavaScript `v || 1` on a number: `1` when `v` is falsy (i.e. `0`). -/
def jsOrOne (v : ℚ) : ℚ := if v = 0 then 1 else v

/-- JavaScript truthiness of a number: nonzero. -/
def jsTruthy (v : ℚ) : Bool := decide (v ≠ 0)

/-- JavaScript `o.f || d` where the field `f` may be absent (`undefined`)
or hold a falsy number. -/
def jsOrDefault (o : Option ℚ) (d : ℚ) : ℚ :=
  match o with
  | none => d
  | some v => if v = 0 then d else v

/-- JavaScript `Math.floor` as a rational-valued function. -/
def jsFloor (q : ℚ) : ℚ := ((⌊q⌋ : ℤ) : ℚ)

/-- JavaScript `Math.round` (round half up) as a rational-valued function. -/
def jsRound (q : ℚ) : ℚ := ((round q : ℤ) : ℚ)

/-- Latched input state of a player (server.js line 88). -/
structure Inputs where
  up : Bool
  down : Bool
  left : Bool
  right : Bool
  aimX : ℚ
  aimY : ℚ
  firing : Bool
  autoFire : Bool
deriving DecidableEq, Repr

/-- The all-false initial input state (server.js line 88). -/
def Inputs.initial : Inputs :=
  { up := false, down := false, left := false, right := false,
    aimX := 0, aimY := 0, firing := false, autoFire := false }

/-- A player record (server.js `createPlayer`, lines 68-90).  `bulletSize`
is `none` until `applyTier` or a level-up sets it, mirroring the field
being `undefined` on a fresh player. -/
structure Player where
  id : ℕ
  name : String
  tier : ℕ
  x : ℚ
  y : ℚ
  vx : ℚ
  vy : ℚ
  angle : ℚ
  size : ℚ
  hp : ℚ
  maxHp : ℚ
  score : ℚ
  xp : ℚ
  level : ℕ
  xpToLevel : ℚ
  damage : ℚ
  fireCooldown : ℚ
  speed : ℚ
  regen : ℚ
  bulletLife : ℚ
  bulletSpeed : ℚ
  lastShot : ℚ
  bulletSize : Option ℚ
  inputs : Inputs
deriving DecidableEq, Repr

/-- Obstacle shape variant: `type === "rect"` with `w`/`h`, or
`type === "hex"` with `size` (server.js lines 27-34). -/
inductive Shape where
  | rect (w h : ℚ)
  | hex (size : ℚ)
deriving DecidableEq, Repr

/-- A destructible obstacle (server.js lines 26-37). -/
structure Obstacle where
  id : ℕ
  x : ℚ
  y : ℚ
  shape : Shape
  hp : ℚ
  maxHp : ℚ
deriving DecidableEq, Repr

/-- A projectile (server.js `createBullet`, lines 129-140).  The unused
uuid identity is omitted; `ownerId` is the owning player's id. -/
structure Bullet where
  ownerId : ℕ
  x : ℚ
  y : ℚ
  vx : ℚ
  vy : ℚ
  size : ℚ
  life : ℚ
  damage : ℚ
deriving DecidableEq, Repr

/-- A connected websocket as seen by the level-up broadcast loop
(`wss.clients`): a socket key, the latched player id (`ws.id`), and
whether `readyState === 1`. -/
structure Client where
  key : ℕ
  id : Option ℕ
  ready : Bool
deriving DecidableEq, Repr

/-- A targeted `levelup` message: the receiving socket key and the level. -/
structure Msg where
  wsKey : ℕ
  level : ℕ
deriving DecidableEq, Repr

/-- Randoms consumed by one `respawnObstacle` call: the shape roll `r`,
raw position draws `rx`/`ry`, dimension draws `a`/`b`, and the max-hp
draw `m`. -/
structure ObsRand where
  r : ℚ
  rx : ℚ
  ry : ℚ
  a : ℚ
  b : ℚ
  m : ℚ
deriving DecidableEq, Repr

/-- Oracle environment supplying every impure value the tick consumes:
`Math.hypot`/`Math.cos`/`Math.sin`/`Math.atan2`/`Math.PI`, the
`Math.random` draws of `resetPlayer` (indexed by player id) and of
`respawnObstacle` (indexed by obstacle id), the fresh `Date.now()/1000`
reads when a destruction schedules a timer and when the respawn sweep
examines an entry, and the current `wss.clients` set. -/
structure Env where
  hypot : ℚ → ℚ → ℚ
  cos : ℚ → ℚ
  sin : ℚ → ℚ
  atan2 : ℚ → ℚ → ℚ
  pi : ℚ
  resetRand : ℕ → ℚ × ℚ
  obsRand : ℕ → ObsRand
  timerNow : ℕ → ℚ
  sweepNow : ℕ → ℚ
  clients : List Client

/-- `calcXpToLevel(level) = Math.round(10 * Math.pow(1.3, level - 1))`
(server.js lines 125-127). -/
def calcXpToLevel (level : ℕ) : ℚ := jsRound (10 * (1.3 : ℚ) ^ (level - 1))

/-- `applyTier(player)` (server.js lines 280-294): tier/damage/bulletSize
as a function of level.  Note tier 3 sets `bulletSize = 8`. -/
def applyTier (p : Player) : Player :=
  if p.level ≥ 10 then { p with tier := 3, damage := 45, bulletSize := some 8 }
  else if p.level ≥ 5 then { p with tier := 2, damage := 30, bulletSize := some 12 }
  else { p with tier := 1, damage := 20, bulletSize := some 5 }

/-- `createPlayer(id, name)` (server.js lines 68-90); `rx`, `ry` are the
two `Math.random()` draws for the spawn position. -/
def createPlayer (id : ℕ) (name : String) (rx ry : ℚ) : Player :=
  { id := id, name := name, tier := 1,
    x := rx * WORLD_W, y := ry * WORLD_H,
    vx := 0, vy := 0, angle := 0, size := 20,
    hp := 100, maxHp := 100,
    score := 0, xp := 0, level := 1, xpToLevel := 10,
    damage := 20, fireCooldown := 0.3, speed := 220, regen := 1,
    bulletLife := 1.8, bulletSpeed := 850, lastShot := 0,
    bulletSize := none, inputs := Inputs.initial }

/-- `resetPlayer(p)` (server.js lines 92-124): the soft reset applied on
death.  Halves and floors xp/score, restores hp, repositions using the
oracle randoms for this player id, decrements level (floor 1), resets
combat baselines, reapplies tier, recomputes `xpToLevel` and clamps xp. -/
def resetPlayer (env : Env) (p : Player) : Player :=
  let rnd := env.resetRand p.id
  let p := { p with xp := jsFloor (p.xp * 0.5), score := jsFloor (p.score * 0.5) }
  let p := { p with hp := 100, maxHp := 100,
                    x := rnd.1 * WORLD_W, y := rnd.2 * WORLD_H }
  let p := { p with level := max 1 (p.level - 1),
                    damage := 20, fireCooldown := 0.3, speed := 220,
                    regen := 1, bulletLife := 1.8, bulletSpeed := 850 }
  let p := applyTier p
  let p := { p with xpToLevel := calcXpToLevel p.level }
  { p with xp := min p.xp (p.xpToLevel - 1) }

/-- `createBullet(owner, x, y, angle, speed, life, dmg)` (server.js lines
129-140).  `size` is `owner.bulletSize || 5`. -/
def createBullet (env : Env) (owner : Player) (x y angle speed life dmg : ℚ) : Bullet :=
  { ownerId := owner.id, x := x, y := y,
    vx := env.cos angle * speed, vy := env.sin angle * speed,
    size := jsOrDefault owner.bulletSize 5, life := life, damage := dmg }

/-- `pointInObstacle(px, py, o)` (server.js lines 142-149).  Rectangle:
strict interior test; hexagon: rotated-square approximation with
non-strict bounds. -/
def pointInObstacle (px py : ℚ) (o : Obstacle) : Bool :=
  match o.shape with
  | .rect w h => decide (px > o.x ∧ px < o.x + w ∧ py > o.y ∧ py < o.y + h)
  | .hex size =>
    let s := size / 2
    let dx := |px - o.x|
    let dy := |py - o.y|
    decide (dx ≤ s ∧ dy ≤ s * 0.866)

/-- `playersCollide(p1, p2)` (server.js lines 151-154): center distance
(via the hypot oracle) strictly below the sum of the radii. -/
def playersCollide (env : Env) (p1 p2 : Player) : Bool :=
  decide (env.hypot (p1.x - p2.x) (p1.y - p2.y) < p1.size + p2.size)

/-- The integer produced by `Math.round` inside `calcXpToLevel`. -/
def calcXpToLevelInt (level : ℕ) : ℤ := round (10 * (1.3 : ℚ) ^ (level - 1))

lemma calcXpToLevel_eq_int (level : ℕ) :
    calcXpToLevel level = ((calcXpToLevelInt level : ℤ) : ℚ) := rfl

lemma ten_le_round_of_ten_le {x : ℚ} (hx : 10 ≤ x) : (10 : ℤ) ≤ round x := by
  by_contra h
  push_neg at h
  have h9 : round x ≤ 9 := by omega
  have h9q : ((round x : ℤ) : ℚ) ≤ 9 := by exact_mod_cast h9
  have := sub_half_lt_round x
  linarith

lemma ten_le_calcXpToLevelInt (level : ℕ) : (10 : ℤ) ≤ calcXpToLevelInt level := by
  have h1 : (1 : ℚ) ≤ (1.3 : ℚ) ^ (level - 1) := one_le_pow₀ (by norm_num)
  exact ten_le_round_of_ten_le (by nlinarith)

lemma ten_le_calcXpToLevel (level : ℕ) : (10 : ℚ) ≤ calcXpToLevel level := by
  rw [calcXpToLevel_eq_int]
  exact_mod_cast ten_le_calcXpToLevelInt level

/-- One iteration of the `while` body of `addXPAndCheckLevel` (server.js
lines 250-277, message send excluded): consume the current threshold,
increment the level, run `applyTier`, recompute `xpToLevel`, then run the
inline duplicated tier block (lines 258-266) which sets `bulletSize = 10`
at level ≥ 10 — overriding the 8 just written by `applyTier`. -/
def levelUpIter (p : Player) : Player :=
  let p := { p with xp := p.xp - p.xpToLevel, level := p.level + 1 }
  let p := applyTier p
  let p := { p with xpToLevel := calcXpToLevel p.level }
  if p.level ≥ 10 then { p with tier := 3, damage := 45, bulletSize := some 10 }
  else if p.level ≥ 5 then { p with tier := 2, damage := 30, bulletSize := some 12 }
  else p

/-- The `wss.clients.forEach` send (server.js lines 270-277): one `levelup`
message per client whose latched `ws.id` equals the player's id and whose
`readyState === 1`. -/
def emitLevelUp (clients : List Client) (p : Player) : List Msg :=
  clients.filterMap (fun c =>
    if c.id = some p.id ∧ c.ready then some { wsKey := c.key, level := p.level } else none)

lemma levelUpIter_xpToLevel (p : Player) :
    (levelUpIter p).xpToLevel = calcXpToLevel (levelUpIter p).level := by
  simp only [levelUpIter, applyTier]
  split_ifs <;> rfl

lemma levelUpIter_xp (p : Player) : (levelUpIter p).xp = p.xp - p.xpToLevel := by
  simp only [levelUpIter, applyTier]
  split_ifs <;> rfl

lemma levelUpIter_level (p : Player) : (levelUpIter p).level = p.level + 1 := by
  simp only [levelUpIter, applyTier]
  split_ifs <;> rfl

lemma floor_toNat_levelUpIter_lt {p : Player}
    (hinv : p.xpToLevel = calcXpToLevel p.level) (h : p.xpToLevel ≤ p.xp) :
    (⌊(levelUpIter p).xp⌋).toNat < (⌊p.xp⌋).toNat := by
  have hn := ten_le_calcXpToLevelInt p.level
  have hxp : ((calcXpToLevelInt p.level : ℤ) : ℚ) ≤ p.xp := by
    rw [hinv, calcXpToLevel_eq_int] at h; exact h
  have hfl : (calcXpToLevelInt p.level : ℤ) ≤ ⌊p.xp⌋ := Int.le_floor.2 hxp
  have hsub : ⌊(levelUpIter p).xp⌋ = ⌊p.xp⌋ - calcXpToLevelInt p.level := by
    rw [levelUpIter_xp, hinv, calcXpToLevel_eq_int, Int.floor_sub_int]
  omega

/-- The `while (player.xp >= player.xpToLevel)` loop of
`addXPAndCheckLevel` (server.js lines 250-278), fuelled to stay
structurally recursive.  From any state reached after the first
iteration the threshold equals `calcXpToLevel level` ≥ 10, so every
iteration consumes at least 10 xp and `⌊xp⌋.toNat + 1` units of fuel are
provably sufficient (`canonLoopF_post` below shows the loop always exits
through its guard, never by exhausting fuel). -/
def canonLoopF : ℕ → List Client → Player → Player × List Msg
  | 0, _, p => (p, [])
  | n + 1, clients, p =>
    if p.xpToLevel ≤ p.xp then
      let p' := levelUpIter p
      let r := canonLoopF n clients p'
      (r.1, emitLevelUp clients p' ++ r.2)
    else (p, [])

/-- The canonical loop run with its sufficient fuel. -/
def runLevelLoop (clients : List Client) (p : Player) : Player × List Msg :=
  canonLoopF ((⌊p.xp⌋).toNat + 1) clients p

/-- `addXPAndCheckLevel(player, xpGain)` (server.js lines 247-279): add
the gain, then run the `while (xp >= xpToLevel)` loop.  The first
iteration (which consumes the entry threshold, whatever it is) is
unrolled here; every later iteration runs in `runLevelLoop`.  Returns the
final player and the emitted `levelup` messages in order. -/
def addXPAndCheckLevel (clients : List Client) (p : Player) (xpGain : ℚ) :
    Player × List Msg :=
  let p := { p with xp := p.xp + xpGain }
  if p.xpToLevel ≤ p.xp then
    let p' := levelUpIter p
    let r := runLevelLoop clients p'
    (r.1, emitLevelUp clients p' ++ r.2)
  else (p, [])

/-- The mutable world aggregate (server.js lines 19-20) together with the
module-level `last` tick timestamp (line 246).  `players` models the
id-keyed object in insertion order; `timers` models the `respawnTimers`
map in insertion order. -/
structure World where
  players : List Player
  bullets : List Bullet
  obstacles : List Obstacle
  timers : List (ℕ × ℚ)
  last : ℚ
deriving DecidableEq, Repr

/-- `world.players[i]`: lookup by id. -/
def findPlayer (ps : List Player) (i : ℕ) : Option Player :=
  ps.find? (fun p => p.id = i)

/-- Writing a player back into the id-keyed object: every entry carrying
this id is replaced (ids are unique in any reachable world). -/
def updatePlayer (ps : List Player) (q : Player) : List Player :=
  ps.map (fun r => if r.id = q.id then q else r)

/-- `world.players[id] = p`: object assignment — overwrite when the key
exists, append otherwise. -/
def playersSet (ps : List Player) (q : Player) : List Player :=
  if ps.any (fun r => r.id = q.id) then updatePlayer ps q else ps ++ [q]

/-- `respawnTimers.set(k, v)`: update in place when present, else append. -/
def timersSet : List (ℕ × ℚ) → ℕ → ℚ → List (ℕ × ℚ)
  | [], k, v => [(k, v)]
  | (a, b) :: t, k, v => if a = k then (k, v) :: t else (a, b) :: timersSet t k v

/-- The freshly randomized obstacle `respawnObstacle` builds for an
identity (server.js lines 43-58), drawing its randoms from the oracle. -/
def freshObstacle (env : Env) (oid : ℕ) : Obstacle :=
  let rnd := env.obsRand oid
  let shape := if rnd.r < 0.5 then Shape.rect (60 + rnd.a * 60) (60 + rnd.b * 60)
               else Shape.hex (60 + rnd.a * 50)
  let maxHp := 120 + rnd.m * 150
  { id := oid, x := rnd.rx * WORLD_W, y := rnd.ry * WORLD_H,
    shape := shape, hp := maxHp, maxHp := maxHp }

/-- Replace the first pool entry whose id matches (`findIndex` plus
in-place assignment, server.js lines 60-63). -/
def replaceFirstObstacle : List Obstacle → Obstacle → List Obstacle
  | [], _ => []
  | o :: os, n => if o.id = n.id then n :: os else o :: replaceFirstObstacle os n

/-- `respawnObstacle(id)` (server.js lines 42-65): build a freshly
randomized obstacle reusing the identity, replace the pool entry found by
`findIndex`, and delete the schedule entry. -/
def respawnObstacle (env : Env) (oid : ℕ) (obstacles : List Obstacle)
    (timers : List (ℕ × ℚ)) : List Obstacle × List (ℕ × ℚ) :=
  (replaceFirstObstacle obstacles (freshObstacle env oid),
    timers.filter (fun e => e.1 ≠ oid))

/-- Movement integration, world-bounds clamp and aim update for one player
(server.js lines 303-315). -/
def stepPlayerMove (env : Env) (dt : ℚ) (p : Player) : Player :=
  let dx : ℚ := 0
  let dy : ℚ := 0
  let dy := if p.inputs.up then dy - 1 else dy
  let dy := if p.inputs.down then dy + 1 else dy
  let dx := if p.inputs.left then dx - 1 else dx
  let dx := if p.inputs.right then dx + 1 else dx
  let len := jsOrOne (env.hypot dx dy)
  let x := p.x + dx / len * p.speed * dt
  let y := p.y + dy / len * p.speed * dt
  let x := max 0 (min WORLD_W x)
  let y := max 0 (min WORLD_H y)
  let angle := if jsTruthy p.inputs.aimX && jsTruthy p.inputs.aimY
               then env.atan2 (p.inputs.aimY - y) (p.inputs.aimX - x)
               else p.angle
  { p with x := x, y := y, angle := angle }

/-- Obstacle contact resolution for one (player, obstacle) pair (server.js
lines 317-343): destroyed obstacles are skipped; rectangles use the
nearest-point push-out, hexagons the containment test plus a fixed push of
5 along the center-to-player direction. -/
def obstacleContact (env : Env) (dt : ℚ) (o : Obstacle) (p : Player) : Player :=
  if o.hp ≤ 0 then p
  else
    match o.shape with
    | .rect w h =>
      let closestX := max o.x (min p.x (o.x + w))
      let closestY := max o.y (min p.y (o.y + h))
      let distX := p.x - closestX
      let distY := p.y - closestY
      let dist := env.hypot distX distY
      if dist < p.size then
        let overlap := p.size - dist
        let nx := distX / jsOrOne dist
        let ny := distY / jsOrOne dist
        { p with hp := p.hp - 25 * dt, x := p.x + nx * overlap, y := p.y + ny * overlap }
      else p
    | .hex _ =>
      if pointInObstacle p.x p.y o then
        let dx := p.x - o.x
        let dy := p.y - o.y
        let len := jsOrOne (env.hypot dx dy)
        { p with hp := p.hp - 25 * dt, x := p.x + dx / len * 5, y := p.y + dy / len * 5 }
      else p

/-- Player-versus-player push-apart applied to the current player `p`
against one other player `q` (server.js lines 345-355). -/
def pvpContact (env : Env) (dt : ℚ) (q : Player) (p : Player) : Player :=
  if playersCollide env p q then
    let angle := env.atan2 (p.y - q.y) (p.x - q.x)
    { p with x := p.x + env.cos angle * 4, y := p.y + env.sin angle * 4,
             hp := p.hp - 10 * dt }
  else p

/-- Firing (server.js lines 359-401): when a fire intent is active and the
cooldown has elapsed, stamp `lastShot` and spawn one bullet (tier < 3) or
two symmetric bullets offset perpendicular to the facing (tier ≥ 3). -/
def fireStep (env : Env) (now : ℚ) (p : Player) : Player × List Bullet :=
  let wantFire := p.inputs.firing || p.inputs.autoFire
  if wantFire && decide (now - p.lastShot > p.fireCooldown) then
    let p := { p with lastShot := now }
    let offset : ℚ := if p.tier ≥ 3 then 8 else 0
    let baseX := p.x + env.cos p.angle * (p.size + 12)
    let baseY := p.y + env.sin p.angle * (p.size + 12)
    if p.tier ≥ 3 then
      (p, [createBullet env p (baseX + env.cos (p.angle + env.pi / 2) * offset)
             (baseY + env.sin (p.angle + env.pi / 2) * offset)
             p.angle p.bulletSpeed p.bulletLife p.damage,
           createBullet env p (baseX + env.cos (p.angle - env.pi / 2) * offset)
             (baseY + env.sin (p.angle - env.pi / 2) * offset)
             p.angle p.bulletSpeed p.bulletLife p.damage])
    else
      (p, [createBullet env p baseX baseY p.angle p.bulletSpeed p.bulletLife p.damage])
  else (p, [])

/-- Passive regeneration clamped to `maxHp` (server.js line 357). -/
def regenStep (dt : ℚ) (p : Player) : Player :=
  { p with hp := min (p.hp + p.regen * dt) p.maxHp }

/-- The death check ending the per-player block (server.js line 403). -/
def deathStep (env : Env) (p : Player) : Player :=
  if p.hp ≤ 0 then resetPlayer env p else p

/-- The per-player pipeline body (server.js lines 301-403) applied to the
already-looked-up player `p`: movement, obstacle contacts,
player-versus-player contacts (reading the other players' current
states), regeneration clamped to `maxHp`, firing, and the death
soft-reset.  Returns the updated player and the bullets fired. -/
def pipeline (env : Env) (now dt : ℚ) (obstacles : List Obstacle)
    (ps : List Player) (pid : ℕ) (p : Player) : Player × List Bullet :=
  let p1 := stepPlayerMove env dt p
  let p2 := obstacles.foldl (fun p o => obstacleContact env dt o p) p1
  let p3 := (ps.filter (fun q => q.id ≠ pid)).foldl (fun p q => pvpContact env dt q p) p2
  let p4 := regenStep dt p3
  let pb := fireStep env now p4
  (deathStep env pb.1, pb.2)

/-- Processing of the player keyed `pid` (server.js lines 301-404): look
it up, run the pipeline, and write the result back over every entry
carrying its id. -/
def stepOnePlayer (env : Env) (now dt : ℚ) (obstacles : List Obstacle)
    (ps : List Player) (pid : ℕ) : List Player × List Bullet :=
  match findPlayer ps pid with
  | none => (ps, [])
  | some p =>
    let r := pipeline env now dt obstacles ps pid p
    (updatePlayer ps r.1, r.2)

/-- Sequential processing of the player phase over the snapshot of player
ids (the `for (const id in world.players)` loop), accumulating fired
bullets in order. -/
def phaseGo (env : Env) (now dt : ℚ) (obstacles : List Obstacle) :
    List ℕ → List Player → List Bullet → List Player × List Bullet
  | [], ps, bs => (ps, bs)
  | pid :: rest, ps, bs =>
    let r := stepOnePlayer env now dt obstacles ps pid
    phaseGo env now dt obstacles rest r.1 (bs ++ r.2)

/-- The player phase of `update` (server.js lines 301-404). -/
def playerPhase (env : Env) (now dt : ℚ) (obstacles : List Obstacle)
    (ps : List Player) : List Player × List Bullet :=
  phaseGo env now dt obstacles (ps.map Player.id) ps []

/-- The per-shape kill reward (server.js lines 427-437): score 10 / xp 5
for a rectangle, score 30 / xp 12 for a hexagon. -/
def obstacleReward (s : Shape) : ℚ × ℚ :=
  match s with
  | .rect _ _ => (10, 5)
  | .hex _ => (30, 12)

/-- The owner-reward block run when a projectile destroys an obstacle
(server.js lines 422-463): if the owner is still connected, add the
score, feed the xp through `addXPAndCheckLevel`, then run the inline
duplicated level-up branch (lines 443-462) guarded by
`owner.xp >= owner.xpToLevel`. -/
def rewardOwner (env : Env) (ownerId : ℕ) (o : Obstacle) (ps : List Player) :
    List Player × List Msg :=
  match findPlayer ps ownerId with
  | none => (ps, [])
  | some owner =>
    let gains := obstacleReward o.shape
    let owner := { owner with score := owner.score + gains.1 }
    let r := addXPAndCheckLevel env.clients owner gains.2
    let owner := r.1
    let ms := r.2
    if owner.xpToLevel ≤ owner.xp then
      let owner := { owner with level := owner.level + 1 }
      let owner :=
        if owner.level ≥ 10 then { owner with tier := 3, damage := 45, bulletSize := some 10 }
        else if owner.level ≥ 5 then { owner with tier := 2, damage := 30, bulletSize := some 12 }
        else owner
      let owner := { owner with xp := owner.xp - owner.xpToLevel,
                                xpToLevel := jsRound (owner.xpToLevel * 1.3) }
      (updatePlayer ps owner, ms ++ emitLevelUp env.clients owner)
    else (updatePlayer ps owner, ms)

/-- The same owner-reward block with the inline duplicated level-up branch
(server.js lines 443-462) deleted; used to state that the branch is dead
code. -/
def rewardOwnerStraight (env : Env) (ownerId : ℕ) (o : Obstacle)
    (ps : List Player) : List Player × List Msg :=
  match findPlayer ps ownerId with
  | none => (ps, [])
  | some owner =>
    let gains := obstacleReward o.shape
    let owner := { owner with score := owner.score + gains.1 }
    let r := addXPAndCheckLevel env.clients owner gains.2
    (updatePlayer ps r.1, r.2)

/-- Result of one projectile's obstacle pass. -/
structure ObsHit where
  obstacles : List Obstacle
  players : List Player
  timers : List (ℕ × ℚ)
  msgs : List Msg
  hit : Bool
deriving Repr

/-- The projectile-versus-obstacle loop (server.js lines 415-470): the
first obstacle containing the projectile's point and not already
destroyed takes the damage; on a kill the hp is clamped to 0, the owner
is rewarded and a respawn timestamp (a fresh clock read) is stored. -/
def bulletVsObstacles (env : Env) (b : Bullet) (ps : List Player)
    (ts : List (ℕ × ℚ)) : List Obstacle → ObsHit
  | [] => { obstacles := [], players := ps, timers := ts, msgs := [], hit := false }
  | o :: os =>
    if pointInObstacle b.x b.y o then
      if o.hp ≤ 0 then
        let r := bulletVsObstacles env b ps ts os
        { r with obstacles := o :: r.obstacles }
      else
        let hp' := o.hp - b.damage
        if hp' ≤ 0 then
          let pm := rewardOwner env b.ownerId o ps
          { obstacles := { o with hp := 0 } :: os, players := pm.1,
            timers := timersSet ts o.id (env.timerNow o.id), msgs := pm.2, hit := true }
        else
          { obstacles := { o with hp := hp' } :: os, players := ps,
            timers := ts, msgs := [], hit := true }
    else
      let r := bulletVsObstacles env b ps ts os
      { r with obstacles := o :: r.obstacles }

/-- The first player eligible to be hit by the projectile (server.js lines
473-477): not the owner, and circle-overlapping the projectile. -/
def findVictim (env : Env) (b : Bullet) (ps : List Player) : Option Player :=
  ps.find? (fun p =>
    decide (p.id ≠ b.ownerId ∧ env.hypot (p.x - b.x) (p.y - b.y) < p.size + b.size))

/-- Result of one projectile's player pass. -/
structure PlHit where
  players : List Player
  msgs : List Msg
  hit : Bool
deriving Repr

/-- The projectile-versus-player loop (server.js lines 472-493): damage
the first eligible player; if that drops them to ≤ 0 *and* the owner is
still connected, reward the owner from the victim's pre-death score and
level and soft-reset the victim.  With the owner gone the victim keeps
the negative hp and no reward is paid. -/
def bulletVsPlayers (env : Env) (b : Bullet) (ps : List Player) : PlHit :=
  match findVictim env b ps with
  | none => { players := ps, msgs := [], hit := false }
  | some p =>
    let p := { p with hp := p.hp - b.damage }
    let ps := updatePlayer ps p
    if p.hp ≤ 0 then
      match findPlayer ps b.ownerId with
      | some owner =>
        let scoreGain := max 5 (jsFloor (p.score * 0.5))
        let xpGain := max 60 (jsFloor ((p.level : ℚ) * 10 * 0.5))
        let owner := { owner with score := owner.score + scoreGain }
        let r := addXPAndCheckLevel env.clients owner xpGain
        let ps := updatePlayer ps r.1
        let ps := updatePlayer ps (resetPlayer env p)
        { players := ps, msgs := r.2, hit := true }
      | none => { players := ps, msgs := [], hit := true }
    else { players := ps, msgs := [], hit := true }

/-- Projectile integration (server.js lines 408-410). -/
def moveBullet (dt : ℚ) (b : Bullet) : Bullet :=
  { b with x := b.x + b.vx * dt, y := b.y + b.vy * dt, life := b.life - dt }

/-- Accumulator of the projectile pass. -/
structure BAcc where
  players : List Player
  obstacles : List Obstacle
  timers : List (ℕ × ℚ)
  keep : List Bullet
  msgs : List Msg
deriving Repr

/-- Processing of a single projectile (server.js lines 406-496): move it,
drop it when its lifetime expires, otherwise try obstacles first and
players second; any hit consumes the projectile. -/
def bulletStep (env : Env) (dt : ℚ) (acc : BAcc) (b : Bullet) : BAcc :=
  let b := moveBullet dt b
  if b.life ≤ 0 then acc
  else
    let ro := bulletVsObstacles env b acc.players acc.timers acc.obstacles
    if ro.hit then
      { acc with players := ro.players, obstacles := ro.obstacles,
                 timers := ro.timers, msgs := acc.msgs ++ ro.msgs }
    else
      let rp := bulletVsPlayers env b acc.players
      if rp.hit then
        { acc with players := rp.players, obstacles := ro.obstacles,
                   msgs := acc.msgs ++ rp.msgs }
      else
        { acc with obstacles := ro.obstacles, keep := b :: acc.keep }

/-- The projectile pass (server.js lines 406-496): the reverse `for` loop
with in-place `splice` — projectiles are processed from the last to the
first, and the survivors keep their original order. -/
def bulletPass (env : Env) (dt : ℚ) (ps : List Player) (os : List Obstacle)
    (ts : List (ℕ × ℚ)) (bullets : List Bullet) : BAcc :=
  bullets.reverse.foldl (bulletStep env dt)
    { players := ps, obstacles := os, timers := ts, keep := [], msgs := [] }

/-- The respawn sweep (server.js lines 497-502): for every schedule entry
whose due time has been reached by the fresh clock read, regenerate the
obstacle and clear the entry. -/
def sweep (env : Env) (os : List Obstacle) (ts : List (ℕ × ℚ)) :
    List Obstacle × List (ℕ × ℚ) :=
  ts.foldl
    (fun acc e =>
      if e.2 ≤ env.sweepNow e.1 then respawnObstacle env e.1 acc.1 acc.2 else acc)
    (os, ts)

/-- `update()` (server.js lines 296-503): one simulation tick.  `now` is
the `Date.now() / 1000` read at entry; the elapsed step is clamped to
0.1 s.  Returns the new world and the `levelup` messages sent during the
tick. -/
def update (env : Env) (now : ℚ) (w : World) : World × List Msg :=
  let dt := min 0.1 (now - w.last)
  let ph := playerPhase env now dt w.obstacles w.players
  let bullets := w.bullets ++ ph.2
  let ba := bulletPass env dt ph.1 w.obstacles w.timers bullets
  let st := sweep env ba.obstacles ba.timers
  ({ players := ba.players, bullets := ba.keep, obstacles := st.1,
     timers := st.2, last := now }, ba.msgs)

/-- The per-connection latched player id (`ws.id`, server.js line 199). -/
structure Conn where
  id : Option ℕ
deriving DecidableEq, Repr

/-- The `upgrade` message handler body (server.js lines 229-238). -/
def applyUpgrade (c : String) (pl : Player) : Player :=
  let pl := if c = "hpMax" then { pl with maxHp := pl.maxHp + 20, hp := pl.maxHp + 20 } else pl
  let pl := if c = "regen" then { pl with regen := pl.regen + 0.5 } else pl
  let pl := if c = "speed" then { pl with speed := pl.speed + 20 } else pl
  let pl := if c = "fireRate" then { pl with fireCooldown := pl.fireCooldown * 0.9 } else pl
  let pl := if c = "damage" then { pl with damage := pl.damage + 5 } else pl
  let pl := if c = "bulletSpeed" then { pl with bulletSpeed := pl.bulletSpeed + 100 } else pl
  if c = "bulletLife" then { pl with bulletLife := pl.bulletLife + 0.2 } else pl

/-- Events a single connection can deliver (server.js lines 198-244): a
parsed `join` (with the fresh uuid and the spawn randoms), a parsed
`input` (a field-by-field patch of the latched inputs), a parsed
`upgrade`, or the transport closing. -/
inductive CEvent where
  | join (fresh : ℕ) (name : String) (rx ry : ℚ)
  | input (patch : Inputs → Inputs)
  | upgrade (choice : String)
  | close

/-- One step of the connection handler (server.js lines 198-244) over the
pair (this connection's `ws.id`, `world.players`).  `join` always mints
the fresh id, overwrites `ws.id` and inserts a fresh player; `input` and
`upgrade` are dropped before a join; `close` deletes only the player
keyed by the connection's latest id. -/
def connStep (s : Conn × List Player) (e : CEvent) : Conn × List Player :=
  match e with
  | .join fresh name rx ry =>
    ({ id := some fresh }, playersSet s.2 (createPlayer fresh name rx ry))
  | .input patch =>
    match s.1.id with
    | none => s
    | some i =>
      (s.1, s.2.map (fun p => if p.id = i then { p with inputs := patch p.inputs } else p))
  | .upgrade c =>
    match s.1.id with
    | none => s
    | some i => (s.1, s.2.map (fun p => if p.id = i then applyUpgrade c p else p))
  | .close =>
    match s.1.id with
    | none => s
    | some i => (s.1, s.2.filter (fun p => p.id ≠ i))

/-- Folding a sequence of events of one connection. -/
def connRun (s : Conn × List Player) : List CEvent → Conn × List Player
  | [] => s
  | e :: es => connRun (connStep s e) es

/-! ### Basic lemmas about the progression loop -/

lemma levelUpIter_hp (p : Player) : (levelUpIter p).hp = p.hp := by
  simp only [levelUpIter, applyTier]; split_ifs <;> rfl

lemma levelUpIter_maxHp (p : Player) : (levelUpIter p).maxHp = p.maxHp := by
  simp only [levelUpIter, applyTier]; split_ifs <;> rfl

lemma levelUpIter_id (p : Player) : (levelUpIter p).id = p.id := by
  simp only [levelUpIter, applyTier]; split_ifs <;> rfl

lemma levelUpIter_score (p : Player) : (levelUpIter p).score = p.score := by
  simp only [levelUpIter, applyTier]; split_ifs <;> rfl

/-- The fuelled loop always exits through its guard: with fuel above
`⌊xp⌋.toNat` and the canonical threshold invariant, the final state
satisfies `xp < xpToLevel`. -/
lemma canonLoopF_post (n : ℕ) : ∀ (clients : List Client) (p : Player),
    (⌊p.xp⌋).toNat < n → p.xpToLevel = calcXpToLevel p.level →
    (canonLoopF n clients p).1.xp < (canonLoopF n clients p).1.xpToLevel := by
  induction n with
  | zero => intro _ p h _; exact absurd h (Nat.not_lt_zero _)
  | succ n ih =>
    intro clients p hfuel hinv
    by_cases h : p.xpToLevel ≤ p.xp
    · have hdec := floor_toNat_levelUpIter_lt hinv h
      simp only [canonLoopF, if_pos h]
      exact ih clients (levelUpIter p) (by omega) (levelUpIter_xpToLevel p)
    · simp only [canonLoopF, if_neg h]
      exact lt_of_not_le h

lemma runLevelLoop_post (clients : List Client) (p : Player)
    (hinv : p.xpToLevel = calcXpToLevel p.level) :
    (runLevelLoop clients p).1.xp < (runLevelLoop clients p).1.xpToLevel :=
  canonLoopF_post _ clients p (Nat.lt_succ_self _) hinv

/-- After any `addXPAndCheckLevel` call the player satisfies
`xp < xpToLevel` — unconditionally. -/
lemma addXP_xp_lt (clients : List Client) (p : Player) (g : ℚ) :
    (addXPAndCheckLevel clients p g).1.xp <
      (addXPAndCheckLevel clients p g).1.xpToLevel := by
  unfold addXPAndCheckLevel
  by_cases h : ({ p with xp := p.xp + g } : Player).xpToLevel ≤
      ({ p with xp := p.xp + g } : Player).xp
  · simp only [if_pos h]
    exact runLevelLoop_post clients _ (levelUpIter_xpToLevel _)
  · simp only [if_neg h]
    exact lt_of_not_le h

/-- `ws.id === player.id && ws.readyState === 1` as a predicate on a
client. -/
def ownedBy (pid : ℕ) (c : Client) : Bool := decide (c.id = some pid ∧ c.ready)

lemma emitLevelUp_eq (clients : List Client) (p : Player) :
    emitLevelUp clients p
      = (clients.filter (ownedBy p.id)).map
          (fun c => { wsKey := c.key, level := p.level }) := by
  induction clients with
  | nil => rfl
  | cons c cs ih =>
    by_cases h : c.id = some p.id ∧ c.ready
    · simp [emitLevelUp, List.filterMap_cons, List.filter_cons, ownedBy, h] at *
      exact ih
    · simp [emitLevelUp, List.filterMap_cons, List.filter_cons, ownedBy, h] at *
      exact ih

/-- With exactly one open client latched to the player's id, the loop
emits one `levelup` message per level gained, carrying the consecutive
levels, all to that client. -/
lemma canonLoopF_msgs (n : ℕ) : ∀ (clients : List Client) (p : Player) (c₀ : Client),
    (⌊p.xp⌋).toNat < n → p.xpToLevel = calcXpToLevel p.level →
    clients.filter (ownedBy p.id) = [c₀] →
    (canonLoopF n clients p).1.level = p.level + (canonLoopF n clients p).2.length ∧
    (canonLoopF n clients p).2
      = (List.range' (p.level + 1) (canonLoopF n clients p).2.length).map
          (fun l => { wsKey := c₀.key, level := l }) := by
  induction n with
  | zero => intro _ p _ h _ _; exact absurd h (Nat.not_lt_zero _)
  | succ n ih =>
    intro clients p c₀ hfuel hinv hfilter
    by_cases h : p.xpToLevel ≤ p.xp
    · have hdec := floor_toNat_levelUpIter_lt hinv h
      have hid : (levelUpIter p).id = p.id := levelUpIter_id p
      have hlev : (levelUpIter p).level = p.level + 1 := levelUpIter_level p
      have hrec := ih clients (levelUpIter p) c₀ (by omega)
        (levelUpIter_xpToLevel p) (by rw [hid]; exact hfilter)
      obtain ⟨h1, h2⟩ := hrec
      have hemit : emitLevelUp clients (levelUpIter p)
          = [{ wsKey := c₀.key, level := p.level + 1 }] := by
        rw [emitLevelUp_eq, hid, hfilter, hlev]; rfl
      simp only [canonLoopF, if_pos h, hemit, List.length_append, List.length_cons,
        List.length_nil, List.cons_append, List.nil_append]
      constructor
      · rw [h1, hlev]; omega
      · rw [h2, hlev]
        simp only [List.length_map, List.length_range']
        rw [List.range'_succ]
        simp
    · simp only [canonLoopF, if_neg h]
      exact ⟨by simp, by simp⟩

/-- Every message the loop emits goes to a client whose latched id is the
player's. -/
lemma canonLoopF_msgs_target (n : ℕ) : ∀ (clients : List Client) (p : Player) (m : Msg),
    m ∈ (canonLoopF n clients p).2 →
    ∃ c ∈ clients, ownedBy p.id c = true ∧ m.wsKey = c.key := by
  induction n with
  | zero => intro _ p m hm; simp [canonLoopF] at hm
  | succ n ih =>
    intro clients p m hm
    by_cases h : p.xpToLevel ≤ p.xp
    · simp only [canonLoopF, if_pos h, List.mem_append] at hm
      rcases hm with hm | hm
      · rw [emitLevelUp_eq] at hm
        simp only [List.mem_map, List.mem_filter] at hm
        obtain ⟨c, ⟨hc1, hc2⟩, hc3⟩ := hm
        refine ⟨c, hc1, ?_, ?_⟩
        · rw [← levelUpIter_id p]; exact hc2
        · rw [← hc3]
      · obtain ⟨c, hc1, hc2, hc3⟩ := ih clients (levelUpIter p) m hm
        exact ⟨c, hc1, by rw [← levelUpIter_id p]; exact hc2, hc3⟩
    · simp [canonLoopF, if_neg h] at hm

/-- The tier table exactly as `applyTier` (server.js lines 280-294)
writes it: tier, damage and projectile size as a function of level. -/
def specTierStats (level : ℕ) : ℕ × ℚ × Option ℚ :=
  if level ≥ 10 then (3, 45, some 8)
  else if level ≥ 5 then (2, 30, some 12)
  else (1, 20, some 5)

/-- The tier table as the level-up loop's inline duplicated block
(server.js lines 258-266) leaves it: identical to `specTierStats` except
that level ≥ 10 keeps `bulletSize = 10`. -/
def overrideTierStats (level : ℕ) : ℕ × ℚ × Option ℚ :=
  if level ≥ 10 then (3, 45, some 10)
  else if level ≥ 5 then (2, 30, some 12)
  else (1, 20, some 5)

lemma applyTier_stats (p : Player) :
    ((applyTier p).tier, (applyTier p).damage, (applyTier p).bulletSize)
      = specTierStats p.level := by
  simp only [applyTier, specTierStats]; split_ifs <;> rfl

lemma applyTier_level (p : Player) : (applyTier p).level = p.level := by
  simp only [applyTier]; split_ifs <;> rfl

lemma levelUpIter_stats (p : Player) :
    ((levelUpIter p).tier, (levelUpIter p).damage, (levelUpIter p).bulletSize)
      = overrideTierStats (levelUpIter p).level := by
  simp only [levelUpIter, applyTier, overrideTierStats]
  split_ifs <;> rfl

/-- The loop preserves the inline-tier-table shape of the player's
combat stats. -/
lemma canonLoopF_stats (n : ℕ) : ∀ (clients : List Client) (p : Player),
    (p.tier, p.damage, p.bulletSize) = overrideTierStats p.level →
    ((canonLoopF n clients p).1.tier, (canonLoopF n clients p).1.damage,
      (canonLoopF n clients p).1.bulletSize)
      = overrideTierStats (canonLoopF n clients p).1.level := by
  induction n with
  | zero => intro _ p hp; exact hp
  | succ n ih =>
    intro clients p hp
    by_cases h : p.xpToLevel ≤ p.xp
    · simp only [canonLoopF, if_pos h]
      exact ih clients (levelUpIter p) (levelUpIter_stats p)
    · simp only [canonLoopF, if_neg h]
      exact hp

/-! ### The xp curve (claim C7) -/

lemma calcXpToLevel_lt_succ (l : ℕ) (hl : 1 ≤ l) :
    calcXpToLevel l < calcXpToLevel (l + 1) := by
  have hx : (1.3 : ℚ) ^ l = (1.3 : ℚ) ^ (l - 1) * 1.3 := by
    conv_lhs => rw [show l = (l - 1) + 1 by omega]
    rw [pow_succ]
  have h1 : (1 : ℚ) ≤ (1.3 : ℚ) ^ (l - 1) := one_le_pow₀ (by norm_num)
  have hra := round_le_add_half ((10 : ℚ) * (1.3 : ℚ) ^ (l - 1))
  have hrb := sub_half_lt_round ((10 : ℚ) * (1.3 : ℚ) ^ l)
  have hgap : (10 : ℚ) * (1.3 : ℚ) ^ (l - 1) + 3 ≤ 10 * (1.3 : ℚ) ^ l := by
    rw [hx]; nlinarith
  unfold calcXpToLevel jsRound
  rw [show (l + 1) - 1 = l by omega]
  linarith

lemma calcXpToLevel_strictMono {l m : ℕ} (hl : 1 ≤ l) (hlm : l < m) :
    calcXpToLevel l < calcXpToLevel m := by
  have key : ∀ k : ℕ, calcXpToLevel l < calcXpToLevel (l + 1 + k) := by
    intro k
    induction k with
    | zero => simpa using calcXpToLevel_lt_succ l hl
    | succ k ih =>
      calc calcXpToLevel l < calcXpToLevel (l + 1 + k) := ih
        _ < calcXpToLevel (l + 1 + k + 1) := calcXpToLevel_lt_succ _ (by omega)
  have := key (m - (l + 1))
  rwa [show l + 1 + (m - (l + 1)) = m by omega] at this

/-- C7 (confirmed): `calcXpToLevel(level)` equals
`round(10 * 1.3^(level-1))` for every level ≥ 1, is strictly increasing
over level ≥ 1, and `calcXpToLevel(1) = 10`. -/
theorem C7_calcXpToLevel_spec :
    calcXpToLevel 1 = 10 ∧
    (∀ l : ℕ, 1 ≤ l → calcXpToLevel l = jsRound (10 * (1.3 : ℚ) ^ (l - 1))) ∧
    (∀ l m : ℕ, 1 ≤ l → l < m → calcXpToLevel l < calcXpToLevel m) := by
  refine ⟨by decide, fun l _ => rfl, fun l m hl hlm => calcXpToLevel_strictMono hl hlm⟩

/-- Witness for C7 at concrete levels. -/
theorem C7_witness : calcXpToLevel 1 = 10 ∧ calcXpToLevel 3 < calcXpToLevel 7 :=
  ⟨C7_calcXpToLevel_spec.1, C7_calcXpToLevel_spec.2.2 3 7 (by norm_num) (by norm_num)⟩

/-! ### Tier recomputation and the level-up override (claim C3) -/

/-- A level-9 player holding exactly one threshold's worth of xp gain. -/
def p9 : Player :=
  { createPlayer 1 "p9" 0 0 with level := 9, xpToLevel := calcXpToLevel 9 }

/-- C3 counterexample: a player who levels up from 9 to 10 through
`addXPAndCheckLevel` ends with projectile size 10, not the 8 that
`applyTier` prescribes for level ≥ 10 — the inline duplicated tier block
inside the loop overwrites `applyTier`'s value. -/
theorem C3_cex :
    (addXPAndCheckLevel [] p9 82).1.level = 10 ∧
    (addXPAndCheckLevel [] p9 82).1.bulletSize = some 10 ∧
    (applyTier (addXPAndCheckLevel [] p9 82).1).bulletSize = some 8 ∧
    (addXPAndCheckLevel [] p9 82).1.bulletSize ≠
      (applyTier (addXPAndCheckLevel [] p9 82).1).bulletSize := by
  decide

/-- C3 (amended): `applyTier` is the deterministic tier table (level ≥ 10
→ tier 3 / damage 45 / size 8; level ≥ 5 → tier 2 / 30 / 12; else tier 1
/ 20 / 5), leaves the level unchanged and is idempotent; but after a
level-up resolution through `addXPAndCheckLevel` the player's stats
follow the inline override table, which prescribes projectile size 10
(not 8) at level ≥ 10. -/
theorem C3_applyTier_and_levelup_override :
    (∀ p : Player,
      ((applyTier p).tier, (applyTier p).damage, (applyTier p).bulletSize)
        = specTierStats p.level ∧ (applyTier p).level = p.level) ∧
    (∀ p : Player, applyTier (applyTier p) = applyTier p) ∧
    (∀ (clients : List Client) (p : Player) (g : ℚ),
      p.xpToLevel ≤ p.xp + g →
      ((addXPAndCheckLevel clients p g).1.tier,
        (addXPAndCheckLevel clients p g).1.damage,
        (addXPAndCheckLevel clients p g).1.bulletSize)
        = overrideTierStats (addXPAndCheckLevel clients p g).1.level) := by
  refine ⟨fun p => ⟨applyTier_stats p, applyTier_level p⟩, fun p => ?_, ?_⟩
  · simp only [applyTier]
    split_ifs <;> rfl
  · intro clients p g hg
    unfold addXPAndCheckLevel
    have hguard : ({ p with xp := p.xp + g } : Player).xpToLevel ≤
        ({ p with xp := p.xp + g } : Player).xp := hg
    simp only [if_pos hguard]
    exact canonLoopF_stats _ _ _ (levelUpIter_stats _)

/-- Witness for C3's amended statement at a concrete level-up. -/
theorem C3_witness :
    p9.xpToLevel ≤ p9.xp + 82 ∧
    ((addXPAndCheckLevel [] p9 82).1.tier,
      (addXPAndCheckLevel [] p9 82).1.damage,
      (addXPAndCheckLevel [] p9 82).1.bulletSize)
      = overrideTierStats (addXPAndCheckLevel [] p9 82).1.level :=
  ⟨by decide, C3_applyTier_and_levelup_override.2.2 [] p9 82 (by decide)⟩

/-! ### The dead inline level-up branch (claim C9) -/

lemma rewardOwner_eq_straight (env : Env) (ownerId : ℕ) (o : Obstacle)
    (ps : List Player) :
    rewardOwner env ownerId o ps = rewardOwnerStraight env ownerId o ps := by
  unfold rewardOwner rewardOwnerStraight
  cases hf : findPlayer ps ownerId with
  | none => rfl
  | some owner =>
    simp only
    rw [if_neg (not_le.mpr (addXP_xp_lt env.clients
      { owner with score := owner.score + (obstacleReward o.shape).1 }
      (obstacleReward o.shape).2))]

/-- C9 (confirmed): after any `addXPAndCheckLevel` call the player
satisfies `xp < xpToLevel` (in particular under the claim's hypotheses),
so the inline duplicated level-up branch in the obstacle-destruction
path, guarded by `owner.xp >= owner.xpToLevel` right after the call, is
dead code: the reward block equals its branch-free variant. -/
theorem C9_inline_branch_unreachable :
    (∀ (clients : List Client) (p : Player) (g : ℚ), 0 ≤ g → 0 < p.xpToLevel →
      (addXPAndCheckLevel clients p g).1.xp <
        (addXPAndCheckLevel clients p g).1.xpToLevel) ∧
    (∀ (env : Env) (ownerId : ℕ) (o : Obstacle) (ps : List Player),
      rewardOwner env ownerId o ps = rewardOwnerStraight env ownerId o ps) :=
  ⟨fun clients p g _ _ => addXP_xp_lt clients p g,
    fun env ownerId o ps => rewardOwner_eq_straight env ownerId o ps⟩

/-- Witness for C9 at a concrete call. -/
theorem C9_witness :
    0 ≤ (5 : ℚ) ∧ 0 < p9.xpToLevel ∧
    (addXPAndCheckLevel [] p9 5).1.xp < (addXPAndCheckLevel [] p9 5).1.xpToLevel :=
  ⟨by norm_num, by decide,
    C9_inline_branch_unreachable.1 [] p9 5 (by norm_num) (by decide)⟩

/-! ### Multi-level xp resolution and its notifications (claim C6) -/

lemma addXP_level_msgs (clients : List Client) (p : Player) (g : ℚ) (c₀ : Client)
    (hfilter : clients.filter (ownedBy p.id) = [c₀]) :
    (addXPAndCheckLevel clients p g).1.level
      = p.level + (addXPAndCheckLevel clients p g).2.length ∧
    (addXPAndCheckLevel clients p g).2
      = (List.range' (p.level + 1) (addXPAndCheckLevel clients p g).2.length).map
          (fun l => { wsKey := c₀.key, level := l }) := by
  unfold addXPAndCheckLevel runLevelLoop
  by_cases h : ({ p with xp := p.xp + g } : Player).xpToLevel ≤
      ({ p with xp := p.xp + g } : Player).xp
  · have hid : (levelUpIter { p with xp := p.xp + g }).id = p.id :=
      levelUpIter_id { p with xp := p.xp + g }
    have hlev : (levelUpIter { p with xp := p.xp + g }).level = p.level + 1 :=
      levelUpIter_level { p with xp := p.xp + g }
    have hrec := canonLoopF_msgs ((⌊(levelUpIter { p with xp := p.xp + g }).xp⌋).toNat + 1)
      clients (levelUpIter { p with xp := p.xp + g }) c₀ (Nat.lt_succ_self _)
      (levelUpIter_xpToLevel { p with xp := p.xp + g }) (by rw [hid]; exact hfilter)
    obtain ⟨h1, h2⟩ := hrec
    have hemit : emitLevelUp clients (levelUpIter { p with xp := p.xp + g })
        = [{ wsKey := c₀.key, level := p.level + 1 }] := by
      rw [emitLevelUp_eq, hid, hfilter, hlev]; rfl
    simp only [if_pos h, hemit, List.cons_append, List.nil_append, List.length_cons]
    constructor
    · rw [h1, hlev]; omega
    · rw [h2, hlev]
      simp only [List.length_map, List.length_range']
      rw [List.range'_succ]
      simp
  · simp only [if_neg h]
    exact ⟨by simp, by simp⟩

lemma addXP_msgs_target (clients : List Client) (p : Player) (g : ℚ) :
    ∀ m ∈ (addXPAndCheckLevel clients p g).2,
      ∃ c ∈ clients, ownedBy p.id c = true ∧ m.wsKey = c.key := by
  unfold addXPAndCheckLevel runLevelLoop
  by_cases h : ({ p with xp := p.xp + g } : Player).xpToLevel ≤
      ({ p with xp := p.xp + g } : Player).xp
  · simp only [if_pos h]
    intro m hm
    rw [List.mem_append] at hm
    have hid : (levelUpIter { p with xp := p.xp + g }).id = p.id :=
      levelUpIter_id { p with xp := p.xp + g }
    rcases hm with hm | hm
    · rw [emitLevelUp_eq] at hm
      simp only [List.mem_map, List.mem_filter] at hm
      obtain ⟨c, ⟨hc1, hc2⟩, hc3⟩ := hm
      exact ⟨c, hc1, by rw [← hid]; exact hc2, by rw [← hc3]⟩
    · obtain ⟨c, hc1, hc2, hc3⟩ :=
        canonLoopF_msgs_target _ clients (levelUpIter { p with xp := p.xp + g }) m hm
      exact ⟨c, hc1, by rw [← hid]; exact hc2, hc3⟩
  · simp only [if_neg h]
    intro m hm
    simp at hm

/-- C6 (confirmed): `addXPAndCheckLevel` adds the gain then loops; the
loop terminates with `xp < xpToLevel`; the final level equals the initial
level plus the number of emitted notifications, which carry exactly the
consecutive levels gained (so a gain covering several thresholds yields
several level-ups); with exactly one open client latched to the player's
id that client receives exactly one message per level gained, and every
message goes to a client latched to the owning player's id. -/
theorem C6_addXP_loop_spec :
    ∀ (clients : List Client) (p : Player) (g : ℚ) (c₀ : Client),
      0 ≤ g →
      clients.filter (ownedBy p.id) = [c₀] →
      (addXPAndCheckLevel clients p g).1.xp
          < (addXPAndCheckLevel clients p g).1.xpToLevel ∧
      (addXPAndCheckLevel clients p g).1.level
          = p.level + (addXPAndCheckLevel clients p g).2.length ∧
      (addXPAndCheckLevel clients p g).2
          = (List.range' (p.level + 1) (addXPAndCheckLevel clients p g).2.length).map
              (fun l => { wsKey := c₀.key, level := l }) ∧
      ∀ m ∈ (addXPAndCheckLevel clients p g).2,
        ∃ c ∈ clients, ownedBy p.id c = true ∧ m.wsKey = c.key := by
  intro clients p g c₀ _ hfilter
  obtain ⟨h1, h2⟩ := addXP_level_msgs clients p g c₀ hfilter
  exact ⟨addXP_xp_lt clients p g, h1, h2, addXP_msgs_target clients p g⟩

/-- The single open client of the C6 witness. -/
def c6w : Client := { key := 7, id := some 1, ready := true }

/-- The level-1 player of the C6 witness. -/
def pw6 : Player := createPlayer 1 "w" 0 0

/-- Witness for C6: a gain of 23 xp from level 1 crosses two thresholds
(10 then 13), producing exactly two level-ups and two messages. -/
theorem C6_witness :
    (addXPAndCheckLevel [c6w] pw6 23).1.xp
        < (addXPAndCheckLevel [c6w] pw6 23).1.xpToLevel ∧
    (addXPAndCheckLevel [c6w] pw6 23).1.level
        = pw6.level + (addXPAndCheckLevel [c6w] pw6 23).2.length ∧
    (addXPAndCheckLevel [c6w] pw6 23).2
        = (List.range' (pw6.level + 1) (addXPAndCheckLevel [c6w] pw6 23).2.length).map
            (fun l => { wsKey := c6w.key, level := l }) ∧
    (addXPAndCheckLevel [c6w] pw6 23).2.length = 2 := by
  have h := C6_addXP_loop_spec [c6w] pw6 23 c6w (by norm_num) (by decide)
  exact ⟨h.1, h.2.1, h.2.2.1, by decide⟩

/-! ### Double join leaks the first player (claim C10) -/

lemma mem_playersSet_self (ps : List Player) (q : Player) : q ∈ playersSet ps q := by
  unfold playersSet
  by_cases h : ps.any (fun r => r.id = q.id)
  · simp only [if_pos h]
    simp only [List.any_eq_true, decide_eq_true_eq] at h
    obtain ⟨r, hr, hrq⟩ := h
    exact List.mem_map.2 ⟨r, hr, by simp [updatePlayer, hrq]⟩
  · rw [if_neg h]
    exact List.mem_append_right _ (List.mem_singleton_self q)

lemma mem_playersSet_of_ne {rec : Player} (ps : List Player) (q : Player)
    (h : rec ∈ ps) (hne : rec.id ≠ q.id) : rec ∈ playersSet ps q := by
  unfold playersSet
  by_cases ha : ps.any (fun r => r.id = q.id)
  · simp only [if_pos ha]
    exact List.mem_map.2 ⟨rec, h, by simp [if_neg hne]⟩
  · simp only [if_neg ha]
    exact List.mem_append_left _ h

lemma mem_map_guard {rec : Player} (ps : List Player) (i : ℕ) (f : Player → Player)
    (h : rec ∈ ps) (hne : rec.id ≠ i) :
    rec ∈ ps.map (fun p => if p.id = i then f p else p) :=
  List.mem_map.2 ⟨rec, h, by rw [if_neg hne]⟩

/-- Once the connection's latched id differs from `rec.id` and every later
join mints an id different from `rec.id`, the record `rec` survives every
event the connection can deliver — including `close`. -/
lemma connRun_persists (rec : Player) : ∀ (evs : List CEvent) (s : Conn × List Player),
    s.1.id ≠ some rec.id → rec ∈ s.2 →
    (∀ f nm rx ry, CEvent.join f nm rx ry ∈ evs → f ≠ rec.id) →
    rec ∈ (connRun s evs).2 := by
  intro evs
  induction evs with
  | nil => intro s _ h _; exact h
  | cons e es ih =>
    intro s hc hm hfresh
    have hfresh' : ∀ f nm rx ry, CEvent.join f nm rx ry ∈ es → f ≠ rec.id :=
      fun f nm rx ry hmem => hfresh f nm rx ry (List.mem_cons_of_mem _ hmem)
    cases e with
    | join f nm rx ry =>
      have hf : f ≠ rec.id := hfresh f nm rx ry (List.mem_cons_self _ _)
      refine ih _ ?_ ?_ hfresh'
      · simp only [connStep]
        intro hcontra
        exact hf (Option.some.inj hcontra)
      · exact mem_playersSet_of_ne _ _ hm (fun hh => hf hh.symm)
    | input patch =>
      cases hcid : s.1.id with
      | none => simp only [connRun, connStep, hcid]; exact ih _ hc hm hfresh'
      | some i =>
        have hi : i ≠ rec.id := fun hh => hc (by rw [hcid, hh])
        simp only [connRun, connStep, hcid]
        exact ih _ hc (mem_map_guard _ _ _ hm (fun hh => hi hh.symm)) hfresh'
    | upgrade c =>
      cases hcid : s.1.id with
      | none => simp only [connRun, connStep, hcid]; exact ih _ hc hm hfresh'
      | some i =>
        have hi : i ≠ rec.id := fun hh => hc (by rw [hcid, hh])
        simp only [connRun, connStep, hcid]
        exact ih _ hc (mem_map_guard _ _ _ hm (fun hh => hi hh.symm)) hfresh'
    | close =>
      cases hcid : s.1.id with
      | none => simp only [connRun, connStep, hcid]; exact ih _ hc hm hfresh'
      | some i =>
        have hi : i ≠ rec.id := fun hh => hc (by rw [hcid, hh])
        simp only [connRun, connStep, hcid]
        exact ih _ hc (List.mem_filter.2 ⟨hm, by simp [Ne.symm hi]⟩) hfresh'

/-- C10 (confirmed): a second `join` on an already-joined connection
mints a fresh id, overwrites the connection's latched id and inserts a
second player; the player created by the first join is still present
after the double join and survives every later event of that
connection — in particular `close`, which deletes only the player keyed
by the latest id. -/
theorem C10_double_join_leak :
    ∀ (c : Conn) (ps : List Player) (id1 id2 : ℕ) (n1 n2 : String)
      (r1x r1y r2x r2y : ℚ),
      id1 ≠ id2 →
      (createPlayer id1 n1 r1x r1y ∈
          (connStep (connStep (c, ps) (.join id1 n1 r1x r1y)) (.join id2 n2 r2x r2y)).2 ∧
        createPlayer id2 n2 r2x r2y ∈
          (connStep (connStep (c, ps) (.join id1 n1 r1x r1y)) (.join id2 n2 r2x r2y)).2 ∧
        (connStep (connStep (c, ps) (.join id1 n1 r1x r1y)) (.join id2 n2 r2x r2y)).1.id
          = some id2) ∧
      ∀ evs : List CEvent, (∀ f nm rx ry, CEvent.join f nm rx ry ∈ evs → f ≠ id1) →
        createPlayer id1 n1 r1x r1y ∈
          (connRun (connStep (connStep (c, ps) (.join id1 n1 r1x r1y))
            (.join id2 n2 r2x r2y)) evs).2 := by
  intro c ps id1 id2 n1 n2 r1x r1y r2x r2y hne
  have hmem1 : createPlayer id1 n1 r1x r1y ∈
      (connStep (connStep (c, ps) (.join id1 n1 r1x r1y)) (.join id2 n2 r2x r2y)).2 := by
    simp only [connStep]
    exact mem_playersSet_of_ne _ _ (mem_playersSet_self _ _) hne
  refine ⟨⟨hmem1, ?_, rfl⟩, ?_⟩
  · simp only [connStep]
    exact mem_playersSet_self _ _
  · intro evs hfresh
    refine connRun_persists _ evs _ ?_ hmem1 hfresh
    simp only [connStep]
    intro hcontra
    exact hne (Option.some.inj hcontra).symm

/-- Witness for C10: two joins then a close on a fresh connection; the
first player is still in the world after the close. -/
theorem C10_witness :
    createPlayer 0 "a" 0 0 ∈
      (connRun (connStep (connStep (({ id := none } : Conn), ([] : List Player))
        (.join 0 "a" 0 0)) (.join 1 "b" 0 0)) [CEvent.close]).2 :=
  (C10_double_join_leak { id := none } [] 0 1 "a" "b" 0 0 0 0 (by decide)).2
    [CEvent.close] (by intro f nm rx ry h; simp at h)

/-! ### Soft reset on death (claim C5) -/

/-- A trivial oracle environment used as the base of concrete instances. -/
def oracleZero : Env :=
  { hypot := fun _ _ => 0, cos := fun _ => 0, sin := fun _ => 0,
    atan2 := fun _ _ => 0, pi := 0, resetRand := fun _ => (0, 0),
    obsRand := fun _ => { r := 0, rx := 0, ry := 0, a := 0, b := 0, m := 0 },
    timerNow := fun _ => 0, sweepNow := fun _ => 0, clients := [] }

/-- C5 (confirmed): `resetPlayer` halves and floors score and xp, drops
the level by one (floor 1), restores `hp = maxHp = 100`, resets the
combat baselines, reapplies the tier table for the new level, recomputes
`xpToLevel`, clamps the retained xp to `xpToLevel - 1`, and re-randomizes
the position inside the world bounds. -/
theorem C5_resetPlayer_spec :
    ∀ (env : Env) (p : Player),
      0 ≤ (env.resetRand p.id).1 → (env.resetRand p.id).1 < 1 →
      0 ≤ (env.resetRand p.id).2 → (env.resetRand p.id).2 < 1 →
      (resetPlayer env p).score = jsFloor (p.score * 0.5) ∧
      (resetPlayer env p).level = max 1 (p.level - 1) ∧
      (resetPlayer env p).hp = 100 ∧ (resetPlayer env p).maxHp = 100 ∧
      (resetPlayer env p).fireCooldown = 0.3 ∧ (resetPlayer env p).speed = 220 ∧
      (resetPlayer env p).regen = 1 ∧ (resetPlayer env p).bulletLife = 1.8 ∧
      (resetPlayer env p).bulletSpeed = 850 ∧
      ((resetPlayer env p).tier, (resetPlayer env p).damage,
        (resetPlayer env p).bulletSize) = specTierStats (resetPlayer env p).level ∧
      (resetPlayer env p).xpToLevel = calcXpToLevel (resetPlayer env p).level ∧
      (resetPlayer env p).xp
        = min (jsFloor (p.xp * 0.5)) ((resetPlayer env p).xpToLevel - 1) ∧
      0 ≤ (resetPlayer env p).x ∧ (resetPlayer env p).x ≤ WORLD_W ∧
      0 ≤ (resetPlayer env p).y ∧ (resetPlayer env p).y ≤ WORLD_H := by
  intro env p h1 h2 h3 h4
  have hx0 : (0 : ℚ) ≤ (env.resetRand p.id).1 * WORLD_W :=
    mul_nonneg h1 (by norm_num [WORLD_W])
  have hx1 : (env.resetRand p.id).1 * WORLD_W ≤ WORLD_W := by
    unfold WORLD_W; nlinarith
  have hy0 : (0 : ℚ) ≤ (env.resetRand p.id).2 * WORLD_H :=
    mul_nonneg h3 (by norm_num [WORLD_H])
  have hy1 : (env.resetRand p.id).2 * WORLD_H ≤ WORLD_H := by
    unfold WORLD_H; nlinarith
  simp only [resetPlayer, applyTier, specTierStats]
  split_ifs <;> (repeat' constructor) <;>
    first
    | rfl
    | exact hx0
    | exact hx1
    | exact hy0
    | exact hy1

/-- The environment of the C5 witness: both reset randoms are 1/2. -/
def envC5 : Env := { oracleZero with resetRand := fun _ => (1/2, 1/2) }

/-- The player of the C5 witness. -/
def pw5 : Player :=
  { createPlayer 2 "r5" 0 0 with
    level := 7, score := 33, xp := 9,
    xpToLevel := calcXpToLevel 7, hp := -3 }

/-- Witness for C5 at a concrete player and environment. -/
theorem C5_witness :
    (resetPlayer envC5 pw5).score = jsFloor (pw5.score * 0.5) ∧
    (resetPlayer envC5 pw5).level = max 1 (pw5.level - 1) ∧
    (resetPlayer envC5 pw5).hp = 100 ∧ (resetPlayer envC5 pw5).maxHp = 100 ∧
    (resetPlayer envC5 pw5).fireCooldown = 0.3 ∧ (resetPlayer envC5 pw5).speed = 220 ∧
    (resetPlayer envC5 pw5).regen = 1 ∧ (resetPlayer envC5 pw5).bulletLife = 1.8 ∧
    (resetPlayer envC5 pw5).bulletSpeed = 850 ∧
    ((resetPlayer envC5 pw5).tier, (resetPlayer envC5 pw5).damage,
      (resetPlayer envC5 pw5).bulletSize) = specTierStats (resetPlayer envC5 pw5).level ∧
    (resetPlayer envC5 pw5).xpToLevel = calcXpToLevel (resetPlayer envC5 pw5).level ∧
    (resetPlayer envC5 pw5).xp
      = min (jsFloor (pw5.xp * 0.5)) ((resetPlayer envC5 pw5).xpToLevel - 1) ∧
    0 ≤ (resetPlayer envC5 pw5).x ∧ (resetPlayer envC5 pw5).x ≤ WORLD_W ∧
    0 ≤ (resetPlayer envC5 pw5).y ∧ (resetPlayer envC5 pw5).y ≤ WORLD_H :=
  C5_resetPlayer_spec envC5 pw5 (by norm_num [envC5, oracleZero])
    (by norm_num [envC5, oracleZero]) (by norm_num [envC5, oracleZero])
    (by norm_num [envC5, oracleZero])

/-! ### Geometry tests (claim C8) -/

/-- Modelled from the spec side for comparison: the closed-interval
("inclusive") rectangle containment the claim asserts, over
`[x, x+w] × [y, y+h]`. -/
def specRectClosed (px py ox oy w h : ℚ) : Prop :=
  ox ≤ px ∧ px ≤ ox + w ∧ oy ≤ py ∧ py ≤ oy + h

/-- A concrete rectangle obstacle whose boundary separates the two
readings. -/
def rectO : Obstacle :=
  { id := 0, x := 0, y := 0, shape := .rect 10 10, hp := 100, maxHp := 100 }

/-- C8 counterexample: the point (0, 5) lies in the claimed closed box
`[0,10] × [0,10]` of `rectO`, yet `pointInObstacle` rejects it — the code
tests the open interior (`px > o.x && px < o.x + w`), not the closed
box. -/
theorem C8_cex :
    pointInObstacle 0 5 rectO = false ∧ specRectClosed 0 5 0 0 10 10 := by
  constructor
  · decide
  · refine ⟨le_refl 0, by norm_num, by norm_num, by norm_num⟩

/-- C8 (amended): rectangle containment is the strict-interior
(open-interval) test over `(x, x+w) × (y, y+h)`; hexagon containment is
exactly the rotated-square approximation `|dx| ≤ s/2 ∧ |dy| ≤ s/2·0.866`;
and `playersCollide` holds iff the Euclidean distance between centers is
strictly below the sum of the radii (stated via squares, with the hypot
oracle correct at the evaluated point). -/
theorem C8_collision_tests :
    (∀ (px py : ℚ) (oid : ℕ) (ox oy w h hp mhp : ℚ),
      pointInObstacle px py
          { id := oid, x := ox, y := oy, shape := .rect w h, hp := hp, maxHp := mhp }
        = true ↔ (ox < px ∧ px < ox + w ∧ oy < py ∧ py < oy + h)) ∧
    (∀ (px py : ℚ) (oid : ℕ) (ox oy s hp mhp : ℚ),
      pointInObstacle px py
          { id := oid, x := ox, y := oy, shape := .hex s, hp := hp, maxHp := mhp }
        = true ↔ (|px - ox| ≤ s / 2 ∧ |py - oy| ≤ s / 2 * 0.866)) ∧
    (∀ (env : Env) (p1 p2 : Player),
      0 ≤ env.hypot (p1.x - p2.x) (p1.y - p2.y) →
      (env.hypot (p1.x - p2.x) (p1.y - p2.y)) ^ 2
        = (p1.x - p2.x) ^ 2 + (p1.y - p2.y) ^ 2 →
      0 ≤ p1.size + p2.size →
      (playersCollide env p1 p2 = true ↔
        (p1.x - p2.x) ^ 2 + (p1.y - p2.y) ^ 2 < (p1.size + p2.size) ^ 2)) := by
  refine ⟨?_, ?_, ?_⟩
  · intro px py oid ox oy w h hp mhp
    simp [pointInObstacle]
  · intro px py oid ox oy s hp mhp
    simp [pointInObstacle]
  · intro env p1 p2 hpos hsq hsize
    unfold playersCollide
    rw [decide_eq_true_iff]
    constructor
    · intro hlt
      nlinarith
    · intro hlt
      nlinarith

/-- The environment of the C8 witness: the hypot oracle returns the exact
distance 5 at the evaluated displacement (-3, -4). -/
def envC8 : Env :=
  { oracleZero with hypot := fun x y => if x = -3 ∧ y = -4 then 5 else 0 }

/-- The two players of the C8 witness, 5 apart with radii summing to 40. -/
def pw8a : Player := createPlayer 0 "c8a" 0 0

/-- Second player of the C8 witness. -/
def pw8b : Player := { createPlayer 1 "c8b" 0 0 with x := 3, y := 4 }

/-- Witness for C8 at concrete inputs. -/
theorem C8_witness :
    (pointInObstacle 5 5 rectO = true ↔
      ((0 : ℚ) < 5 ∧ (5 : ℚ) < 0 + 10 ∧ (0 : ℚ) < 5 ∧ (5 : ℚ) < 0 + 10)) ∧
    (playersCollide envC8 pw8a pw8b = true ↔
      (pw8a.x - pw8b.x) ^ 2 + (pw8a.y - pw8b.y) ^ 2
        < (pw8a.size + pw8b.size) ^ 2) :=
  ⟨C8_collision_tests.1 5 5 0 0 0 10 10 100 100,
    C8_collision_tests.2.2 envC8 pw8a pw8b (by norm_num [envC8, oracleZero, pw8a, pw8b, createPlayer])
      (by norm_num [envC8, oracleZero, pw8a, pw8b, createPlayer])
      (by norm_num [pw8a, pw8b, createPlayer])⟩

/-! ### Obstacle destruction, reward and respawn (claim C2) -/

lemma timersSet_mem (ts : List (ℕ × ℚ)) (k : ℕ) (v : ℚ) : (k, v) ∈ timersSet ts k v := by
  induction ts with
  | nil => exact List.mem_singleton_self _
  | cons e t ih =>
    unfold timersSet
    by_cases h : e.1 = k
    · rw [if_pos h]; exact List.mem_cons_self _ _
    · rw [if_neg h]; exact List.mem_cons_of_mem _ ih

/-- C2 (amended): when a projectile drops a live obstacle's health to
≤ 0, the hp is clamped to exactly 0, the projectile is consumed, the
owner (when still connected) receives the shape reward — score 10 / xp 5
for a rectangle, 30 / 12 for a hexagon, the xp paid through
`addXPAndCheckLevel` with no further effect — and a respawn timestamp
equal to the *raw fresh clock read* (no added delay) is stored for the
obstacle id; the respawn sweep then replaces the obstacle in place by a
freshly randomized one with the same identity, with `hp = maxHp`, and
clears the schedule entry, as soon as a sweep's clock read reaches the
stored timestamp — which the very first sweep after destruction already
does. -/
theorem C2_destruction_and_respawn :
    (∀ (env : Env) (b : Bullet) (ps : List Player) (ts : List (ℕ × ℚ))
        (o : Obstacle) (os : List Obstacle),
      pointInObstacle b.x b.y o = true → 0 < o.hp → o.hp - b.damage ≤ 0 →
      (bulletVsObstacles env b ps ts (o :: os)).obstacles = { o with hp := 0 } :: os ∧
      (bulletVsObstacles env b ps ts (o :: os)).hit = true ∧
      (bulletVsObstacles env b ps ts (o :: os)).timers
          = timersSet ts o.id (env.timerNow o.id) ∧
      (∀ owner, findPlayer ps b.ownerId = some owner →
        (bulletVsObstacles env b ps ts (o :: os)).players
          = updatePlayer ps
              (addXPAndCheckLevel env.clients
                { owner with score := owner.score + (obstacleReward o.shape).1 }
                (obstacleReward o.shape).2).1) ∧
      (findPlayer ps b.ownerId = none →
        (bulletVsObstacles env b ps ts (o :: os)).players = ps)) ∧
    (∀ w h s : ℚ, obstacleReward (.rect w h) = (10, 5) ∧ obstacleReward (.hex s) = (30, 12)) ∧
    (∀ (ts : List (ℕ × ℚ)) (k : ℕ) (v : ℚ), (k, v) ∈ timersSet ts k v) ∧
    (∀ (env : Env) (oid : ℕ) (t : ℚ) (os : List Obstacle),
      t ≤ env.sweepNow oid →
      sweep env os [(oid, t)]
        = (replaceFirstObstacle os (freshObstacle env oid), [])) ∧
    (∀ (env : Env) (oid : ℕ),
      (freshObstacle env oid).id = oid ∧
      (freshObstacle env oid).hp = (freshObstacle env oid).maxHp) ∧
    (∀ (env : Env) (oid : ℕ) (o : Obstacle) (os : List Obstacle), o.id = oid →
      replaceFirstObstacle (o :: os) (freshObstacle env oid)
        = freshObstacle env oid :: os) := by
  refine ⟨?_, ?_, timersSet_mem, ?_, ?_, ?_⟩
  · intro env b ps ts o os hpt hlive hkill
    have hnot : ¬ o.hp ≤ 0 := not_le.mpr hlive
    unfold bulletVsObstacles
    rw [if_pos hpt, if_neg hnot, if_pos hkill]
    refine ⟨rfl, rfl, rfl, ?_, ?_⟩
    · intro owner howner
      simp only [rewardOwner, howner]
      rw [if_neg (not_le.mpr (addXP_xp_lt env.clients
        { owner with score := owner.score + (obstacleReward o.shape).1 }
        (obstacleReward o.shape).2))]
    · intro hnone
      simp only [rewardOwner, hnone]
  · intro w h s; exact ⟨rfl, rfl⟩
  · intro env oid t os hdue
    unfold sweep
    simp only [List.foldl_cons, List.foldl_nil, if_pos hdue]
    unfold respawnObstacle
    simp [hdue]
  · intro env oid
    exact ⟨rfl, rfl⟩
  · intro env oid o os hid
    unfold replaceFirstObstacle
    rw [if_pos (by simp [freshObstacle, hid])]

/-- The shooter of the C2 concrete scenario. -/
def cexS : Player := { createPlayer 1 "s" 0 0 with x := 100, y := 0 }

/-- The almost-destroyed rectangle obstacle of the C2 scenario. -/
def cexO : Obstacle :=
  { id := 5, x := 100, y := 100, shape := .rect 50 50, hp := 1, maxHp := 120 }

/-- The projectile of the C2 scenario, already inside the obstacle. -/
def cexB : Bullet :=
  { ownerId := 1, x := 120, y := 120, vx := 0, vy := 0, size := 5, life := 1, damage := 5 }

/-- Oracle for the C2 scenario: the only hypot calls are (0,0) during
movement and (0,-100) in the rectangle contact test, both exact; every
clock read returns the tick time 10; the respawn randoms are fixed. -/
def cexEnv2 : Env :=
  { oracleZero with
    hypot := fun x y => if x = 0 ∧ y = -100 then 100 else 0,
    timerNow := fun _ => 10, sweepNow := fun _ => 10,
    obsRand := fun _ => { r := 1/4, rx := 1/10, ry := 1/5, a := 1/4, b := 1/2, m := 1/3 } }

/-- The C2 world: one shooter, one projectile, one obstacle at 1 hp, no
pending respawns, previous tick 1/20 s ago. -/
def cexWorld2 : World :=
  { players := [cexS], bullets := [cexB], obstacles := [cexO],
    timers := [], last := 199/20 }

/-- C2 counterexample: the projectile pass stores the respawn timestamp
10 — exactly the fresh clock read at destruction time, not `now` plus a
positive fixed delay — and after the very same tick (`update` at time
10) the obstacle has already been replaced by the freshly randomized one
(hp 170 ≠ 0) and the schedule is empty: no positive delay ever
elapses. -/
theorem C2_cex :
    (bulletVsObstacles cexEnv2 (moveBullet (1/20) cexB) [cexS] [] [cexO]).timers
        = [(5, 10)] ∧
    (¬ ∃ d : ℚ, 0 < d ∧ (10 : ℚ) + d = 10) ∧
    (update cexEnv2 10 cexWorld2).1.obstacles = [freshObstacle cexEnv2 5] ∧
    (freshObstacle cexEnv2 5).hp = 170 ∧
    (update cexEnv2 10 cexWorld2).1.timers = [] := by
  refine ⟨by decide, ?_, by decide, by decide, by decide⟩
  rintro ⟨d, hd, h⟩
  linarith

/-- Witness for C2's amended statement at the concrete scenario. -/
theorem C2_witness :
    (bulletVsObstacles cexEnv2 (moveBullet (1/20) cexB) [cexS] [] [cexO]).timers
        = timersSet [] cexO.id (cexEnv2.timerNow cexO.id) ∧
    sweep cexEnv2 [{ cexO with hp := 0 }] [(5, 10)]
        = (replaceFirstObstacle [{ cexO with hp := 0 }] (freshObstacle cexEnv2 5), []) := by
  have hcons : ([cexO] : List Obstacle) = cexO :: [] := rfl
  refine ⟨?_, C2_destruction_and_respawn.2.2.2.1 cexEnv2 5 10 _ (by decide)⟩
  rw [hcons]
  exact (C2_destruction_and_respawn.1 cexEnv2 (moveBullet (1/20) cexB) [cexS] [] cexO []
    (by decide) (by decide) (by decide)).2.2.1

/-! ### Projectile-versus-player resolution (claim C4) -/

/-- C4 (amended): when a projectile that hit no obstacle overlaps the
first eligible player (not the owner), that player's hp drops by the
projectile damage and the projectile is consumed.  When this drops the
victim to ≤ 0 *and* the owner is still connected, the owner gains
score `max(5, ⌊victimScore·0.5⌋)` and xp `max(60, ⌊victimLevel·10·0.5⌋)`
from the victim's pre-death score and level, and the victim is
soft-reset in the same pass.  When the owner has disconnected, the
projectile still resolves (damage applied, projectile consumed) but no
scoring or notification occurs *and the victim is not soft-reset in that
pass* — the dead victim keeps its non-positive hp. -/
theorem C4_bullet_vs_players :
    ∀ (env : Env) (b : Bullet) (ps : List Player) (v : Player),
      findVictim env b ps = some v →
      (bulletVsPlayers env b ps).hit = true ∧
      (v.hp - b.damage ≤ 0 →
        (∀ owner,
          findPlayer (updatePlayer ps { v with hp := v.hp - b.damage }) b.ownerId
            = some owner →
          (bulletVsPlayers env b ps).players
            = updatePlayer
                (updatePlayer (updatePlayer ps { v with hp := v.hp - b.damage })
                  (addXPAndCheckLevel env.clients
                    { owner with score := owner.score + max 5 (jsFloor (v.score * 0.5)) }
                    (max 60 (jsFloor ((v.level : ℚ) * 10 * 0.5)))).1)
                (resetPlayer env { v with hp := v.hp - b.damage })) ∧
        (findPlayer (updatePlayer ps { v with hp := v.hp - b.damage }) b.ownerId
            = none →
          (bulletVsPlayers env b ps).players
            = updatePlayer ps { v with hp := v.hp - b.damage } ∧
          (bulletVsPlayers env b ps).msgs = [])) ∧
      (¬ v.hp - b.damage ≤ 0 →
        (bulletVsPlayers env b ps).players
          = updatePlayer ps { v with hp := v.hp - b.damage }) := by
  intro env b ps v hfind
  unfold bulletVsPlayers
  rw [hfind]
  by_cases hdead : v.hp - b.damage ≤ 0
  · simp only [if_pos hdead]
    refine ⟨?_, fun _ => ⟨?_, ?_⟩, fun hcontra => absurd hdead hcontra⟩
    · cases how : findPlayer (updatePlayer ps { v with hp := v.hp - b.damage }) b.ownerId
        <;> simp [how]
    · intro owner howner
      rw [howner]
    · intro hnone
      rw [hnone]
      exact ⟨rfl, rfl⟩
  · simp only [if_neg hdead]
    exact ⟨trivial, fun hcontra => absurd hcontra hdead, fun _ => trivial⟩

/-- The victim of the C4 concrete scenario, at 5 hp. -/
def cexV : Player := { createPlayer 3 "v" 0 0 with hp := 5 }

/-- An orphan projectile of the C4 scenario: its owner id 99 matches no
player. -/
def cexB4 : Bullet :=
  { ownerId := 99, x := 0, y := 0, vx := 0, vy := 0, size := 5, life := 1, damage := 20 }

/-- C4 counterexample: the orphan projectile kills the victim (hp drops
to −15 ≤ 0) and is consumed, but — contrary to the claim that the only
difference is the missing scoring/notification — `resetPlayer` is *not*
applied to the victim in that pass: the result keeps the dead victim,
and differs from the soft-reset outcome the claim requires. -/
theorem C4_cex :
    (bulletVsPlayers oracleZero cexB4 [cexV]).players = [{ cexV with hp := -15 }] ∧
    (bulletVsPlayers oracleZero cexB4 [cexV]).hit = true ∧
    ({ cexV with hp := -15 } : Player).hp ≤ 0 ∧
    (bulletVsPlayers oracleZero cexB4 [cexV]).players
      ≠ [resetPlayer oracleZero { cexV with hp := -15 }] := by
  decide

/-- The victim of the C4 witness scenario. -/
def cexV2 : Player := { createPlayer 3 "v" 0 0 with hp := 5 }

/-- The connected owner of the C4 witness scenario, away from the
projectile. -/
def cexO4 : Player := { createPlayer 4 "o" 0 0 with x := 500 }

/-- The killing projectile of the C4 witness scenario. -/
def cexB4b : Bullet :=
  { ownerId := 4, x := 0, y := 0, vx := 0, vy := 0, size := 5, life := 1, damage := 20 }

/-- Oracle of the C4 witness: exact hypot values at the two evaluated
displacements. -/
def envC4 : Env :=
  { oracleZero with
    hypot := fun x y => if x = 500 ∧ y = 0 then 500 else 0 }

/-- Witness for C4's amended statement: with the owner connected, the
kill pays the reward and soft-resets the victim in the same pass. -/
theorem C4_witness :
    (bulletVsPlayers envC4 cexB4b [cexV2, cexO4]).hit = true ∧
    (bulletVsPlayers envC4 cexB4b [cexV2, cexO4]).players
      = updatePlayer
          (updatePlayer (updatePlayer [cexV2, cexO4] { cexV2 with hp := cexV2.hp - cexB4b.damage })
            (addXPAndCheckLevel envC4.clients
              { cexO4 with score := cexO4.score + max 5 (jsFloor (cexV2.score * 0.5)) }
              (max 60 (jsFloor ((cexV2.level : ℚ) * 10 * 0.5)))).1)
          (resetPlayer envC4 { cexV2 with hp := cexV2.hp - cexB4b.damage }) := by
  have h := C4_bullet_vs_players envC4 cexB4b [cexV2, cexO4] cexV2 (by decide)
  exact ⟨h.1, (h.2.1 (by decide)).1 cexO4 (by decide)⟩

/-! ### Per-tick health and position bounds (claim C1) -/

lemma stepPlayerMove_id (env : Env) (dt : ℚ) (p : Player) :
    (stepPlayerMove env dt p).id = p.id ∧ (stepPlayerMove env dt p).damage = p.damage :=
  ⟨rfl, rfl⟩

lemma obstacleContact_fields (env : Env) (dt : ℚ) (o : Obstacle) (p : Player) :
    (obstacleContact env dt o p).id = p.id ∧
    (obstacleContact env dt o p).damage = p.damage := by
  rcases o with ⟨oid, ox, oy, sh, ohp, omhp⟩
  cases sh <;> simp only [obstacleContact] <;> split_ifs <;> exact ⟨rfl, rfl⟩

lemma pvpContact_fields (env : Env) (dt : ℚ) (q p : Player) :
    (pvpContact env dt q p).id = p.id ∧ (pvpContact env dt q p).damage = p.damage := by
  unfold pvpContact
  split_ifs <;> exact ⟨rfl, rfl⟩

lemma obstacleFold_fields (env : Env) (dt : ℚ) :
    ∀ (os : List Obstacle) (p : Player),
      ((os.foldl (fun p o => obstacleContact env dt o p) p).id = p.id ∧
        (os.foldl (fun p o => obstacleContact env dt o p) p).damage = p.damage) := by
  intro os
  induction os with
  | nil => exact fun p => ⟨rfl, rfl⟩
  | cons o rest ih =>
    intro p
    obtain ⟨h1, h2⟩ := ih (obstacleContact env dt o p)
    obtain ⟨g1, g2⟩ := obstacleContact_fields env dt o p
    exact ⟨by rw [List.foldl_cons, h1, g1], by rw [List.foldl_cons, h2, g2]⟩

lemma pvpFold_fields (env : Env) (dt : ℚ) :
    ∀ (qs : List Player) (p : Player),
      ((qs.foldl (fun p q => pvpContact env dt q p) p).id = p.id ∧
        (qs.foldl (fun p q => pvpContact env dt q p) p).damage = p.damage) := by
  intro qs
  induction qs with
  | nil => exact fun p => ⟨rfl, rfl⟩
  | cons q rest ih =>
    intro p
    obtain ⟨h1, h2⟩ := ih (pvpContact env dt q p)
    obtain ⟨g1, g2⟩ := pvpContact_fields env dt q p
    exact ⟨by rw [List.foldl_cons, h1, g1], by rw [List.foldl_cons, h2, g2]⟩

lemma fireStep_fields (env : Env) (now : ℚ) (p : Player) :
    (fireStep env now p).1.hp = p.hp ∧ (fireStep env now p).1.maxHp = p.maxHp ∧
    (fireStep env now p).1.id = p.id ∧ (fireStep env now p).1.damage = p.damage := by
  simp only [fireStep]
  split_ifs <;> exact ⟨rfl, rfl, rfl, rfl⟩

lemma fireStep_bullets (env : Env) (now : ℚ) (p : Player) :
    ∀ b ∈ (fireStep env now p).2, b.damage = p.damage ∧ b.ownerId = p.id := by
  simp only [fireStep]
  split_ifs <;> intro b hb <;> simp only [List.mem_cons, List.mem_singleton] at hb
  · rcases hb with rfl | rfl | hb
    · exact ⟨rfl, rfl⟩
    · exact ⟨rfl, rfl⟩
    · cases hb
  · rcases hb with rfl | hb
    · exact ⟨rfl, rfl⟩
    · cases hb
  · cases hb

lemma resetPlayer_fields (env : Env) (p : Player) :
    (resetPlayer env p).hp = 100 ∧ (resetPlayer env p).maxHp = 100 ∧
    (resetPlayer env p).id = p.id ∧ 0 ≤ (resetPlayer env p).damage := by
  simp only [resetPlayer, applyTier]
  split_ifs <;> refine ⟨rfl, rfl, rfl, by norm_num⟩

lemma regenStep_le (dt : ℚ) (p : Player) :
    (regenStep dt p).hp ≤ (regenStep dt p).maxHp := min_le_right _ _

lemma regenStep_fields (dt : ℚ) (p : Player) :
    (regenStep dt p).id = p.id ∧ (regenStep dt p).damage = p.damage := ⟨rfl, rfl⟩

lemma deathStep_strong (env : Env) (p : Player) (h : p.hp ≤ p.maxHp) :
    0 < (deathStep env p).hp ∧ (deathStep env p).hp ≤ (deathStep env p).maxHp := by
  unfold deathStep
  by_cases hdead : p.hp ≤ 0
  · rw [if_pos hdead]
    obtain ⟨h1, h2, _, _⟩ := resetPlayer_fields env p
    rw [h1, h2]
    norm_num
  · rw [if_neg hdead]
    exact ⟨lt_of_not_le hdead, h⟩

lemma deathStep_id (env : Env) (p : Player) : (deathStep env p).id = p.id := by
  unfold deathStep
  by_cases hdead : p.hp ≤ 0
  · rw [if_pos hdead]
    exact (resetPlayer_fields env p).2.2.1
  · rw [if_neg hdead]

lemma deathStep_damage (env : Env) (p : Player) (hd : 0 ≤ p.damage) :
    0 ≤ (deathStep env p).damage := by
  unfold deathStep
  by_cases hdead : p.hp ≤ 0
  · rw [if_pos hdead]
    exact (resetPlayer_fields env p).2.2.2
  · rw [if_neg hdead]
    exact hd

/-- The player the pipeline hands to the fire step. -/
def preFire (env : Env) (dt : ℚ) (obstacles : List Obstacle) (ps : List Player)
    (pid : ℕ) (p : Player) : Player :=
  regenStep dt
    ((ps.filter (fun q => q.id ≠ pid)).foldl (fun p q => pvpContact env dt q p)
      (obstacles.foldl (fun p o => obstacleContact env dt o p) (stepPlayerMove env dt p)))

lemma pipeline_eq (env : Env) (now dt : ℚ) (obstacles : List Obstacle)
    (ps : List Player) (pid : ℕ) (p : Player) :
    pipeline env now dt obstacles ps pid p
      = (deathStep env (fireStep env now (preFire env dt obstacles ps pid p)).1,
          (fireStep env now (preFire env dt obstacles ps pid p)).2) := rfl

lemma preFire_fields (env : Env) (dt : ℚ) (obstacles : List Obstacle)
    (ps : List Player) (pid : ℕ) (p : Player) :
    (preFire env dt obstacles ps pid p).id = p.id ∧
    (preFire env dt obstacles ps pid p).damage = p.damage := by
  unfold preFire
  obtain ⟨h3, h3'⟩ := pvpFold_fields env dt (ps.filter (fun q => q.id ≠ pid))
    (obstacles.foldl (fun p o => obstacleContact env dt o p) (stepPlayerMove env dt p))
  obtain ⟨h2, h2'⟩ := obstacleFold_fields env dt obstacles (stepPlayerMove env dt p)
  exact ⟨by rw [(regenStep_fields _ _).1, h3, h2]; exact (stepPlayerMove_id env dt p).1,
    by rw [(regenStep_fields _ _).2, h3', h2']; exact (stepPlayerMove_id env dt p).2⟩

lemma pipeline_strongInv (env : Env) (now dt : ℚ) (obstacles : List Obstacle)
    (ps : List Player) (pid : ℕ) (p : Player) :
    0 < (pipeline env now dt obstacles ps pid p).1.hp ∧
    (pipeline env now dt obstacles ps pid p).1.hp
      ≤ (pipeline env now dt obstacles ps pid p).1.maxHp := by
  rw [pipeline_eq]
  refine deathStep_strong env _ ?_
  obtain ⟨h1, h2, _, _⟩ := fireStep_fields env now (preFire env dt obstacles ps pid p)
  rw [h1, h2]
  exact regenStep_le dt _

lemma pipeline_id (env : Env) (now dt : ℚ) (obstacles : List Obstacle)
    (ps : List Player) (pid : ℕ) (p : Player) :
    (pipeline env now dt obstacles ps pid p).1.id = p.id := by
  rw [pipeline_eq]
  rw [deathStep_id, (fireStep_fields env now _).2.2.1, (preFire_fields env dt obstacles ps pid p).1]

lemma pipeline_damage (env : Env) (now dt : ℚ) (obstacles : List Obstacle)
    (ps : List Player) (pid : ℕ) (p : Player) (hd : 0 ≤ p.damage) :
    0 ≤ (pipeline env now dt obstacles ps pid p).1.damage := by
  rw [pipeline_eq]
  refine deathStep_damage env _ ?_
  rw [(fireStep_fields env now _).2.2.2, (preFire_fields env dt obstacles ps pid p).2]
  exact hd

lemma pipeline_bullets (env : Env) (now dt : ℚ) (obstacles : List Obstacle)
    (ps : List Player) (pid : ℕ) (p : Player) :
    ∀ b ∈ (pipeline env now dt obstacles ps pid p).2,
      b.damage = p.damage ∧ b.ownerId = p.id := by
  rw [pipeline_eq]
  intro b hb
  obtain ⟨hb1, hb2⟩ := fireStep_bullets env now (preFire env dt obstacles ps pid p) b hb
  exact ⟨by rw [hb1, (preFire_fields env dt obstacles ps pid p).2],
    by rw [hb2, (preFire_fields env dt obstacles ps pid p).1]⟩

lemma updatePlayer_map_id (ps : List Player) (q : Player) :
    (updatePlayer ps q).map Player.id = ps.map Player.id := by
  induction ps with
  | nil => rfl
  | cons r t ih =>
    unfold updatePlayer at ih ⊢
    simp only [List.map_cons]
    by_cases h : r.id = q.id
    · rw [if_pos h, ih, h]
    · rw [if_neg h, ih]

lemma mem_updatePlayer (ps : List Player) (q : Player) :
    ∀ r ∈ updatePlayer ps q, r = q ∨ (r ∈ ps ∧ r.id ≠ q.id) := by
  intro r hr
  unfold updatePlayer at hr
  obtain ⟨a, ha, hfa⟩ := List.mem_map.1 hr
  by_cases h : a.id = q.id
  · left; rw [← hfa, if_pos h]
  · right
    rw [← hfa, if_neg h]
    exact ⟨ha, h⟩

lemma findPlayer_eq_some {ps : List Player} {i : ℕ} {p : Player}
    (h : findPlayer ps i = some p) : p ∈ ps ∧ p.id = i := by
  unfold findPlayer at h
  refine ⟨List.mem_of_find?_eq_some h, ?_⟩
  have := List.find?_some h
  simpa using this

lemma findPlayer_eq_none {ps : List Player} {i : ℕ}
    (h : findPlayer ps i = none) : ∀ q ∈ ps, q.id ≠ i := by
  unfold findPlayer at h
  intro q hq
  have := List.find?_eq_none.1 h q hq
  simpa using this

lemma findPlayer_of_mem_map {ps : List Player} {i : ℕ}
    (h : i ∈ ps.map Player.id) : ∃ p, findPlayer ps i = some p := by
  cases hf : findPlayer ps i with
  | none =>
    obtain ⟨q, hq, hid⟩ := List.mem_map.1 h
    exact absurd hid (findPlayer_eq_none hf q hq)
  | some p => exact ⟨p, rfl⟩

/-- One pass over the ids: the id multiset of the player map never
changes, damage stays non-negative, every entry whose id has been
processed (or that already satisfied the bound) ends with
`0 < hp ≤ maxHp`, and every fired bullet carries non-negative damage and
an owner id present in the map. -/
lemma phaseGo_master (env : Env) (now dt : ℚ) (obstacles : List Obstacle) :
    ∀ (ids : List ℕ) (ps : List Player) (bs : List Bullet) (pids0 : List ℕ),
      ps.map Player.id = pids0 →
      (∀ q ∈ ps, 0 ≤ q.damage) →
      (∀ q ∈ ps, q.id ∈ ids ∨ (0 < q.hp ∧ q.hp ≤ q.maxHp)) →
      (∀ b ∈ bs, 0 ≤ b.damage ∧ b.ownerId ∈ pids0) →
      (phaseGo env now dt obstacles ids ps bs).1.map Player.id = pids0 ∧
      (∀ q ∈ (phaseGo env now dt obstacles ids ps bs).1, 0 ≤ q.damage) ∧
      (∀ q ∈ (phaseGo env now dt obstacles ids ps bs).1, 0 < q.hp ∧ q.hp ≤ q.maxHp) ∧
      (∀ b ∈ (phaseGo env now dt obstacles ids ps bs).2,
        0 ≤ b.damage ∧ b.ownerId ∈ pids0) := by
  intro ids
  induction ids with
  | nil =>
    intro ps bs pids0 hmap hdmg hstr hbul
    refine ⟨hmap, hdmg, ?_, hbul⟩
    intro q hq
    rcases hstr q hq with h | h
    · cases h
    · exact h
  | cons pid rest ih =>
    intro ps bs pids0 hmap hdmg hstr hbul
    unfold phaseGo stepOnePlayer
    cases hf : findPlayer ps pid with
    | none =>
      refine ih ps (bs ++ []) pids0 hmap hdmg ?_ (by simpa using hbul)
      intro q hq
      rcases hstr q hq with h | h
      · rcases List.mem_cons.1 h with h' | h'
        · exact absurd h' (findPlayer_eq_none hf q hq)
        · exact Or.inl h'
      · exact Or.inr h
    | some p =>
      obtain ⟨hpmem, hpid⟩ := findPlayer_eq_some hf
      simp only
      set pf := (pipeline env now dt obstacles ps pid p).1 with hpf
      have hfid : pf.id = p.id := pipeline_id env now dt obstacles ps pid p
      refine ih (updatePlayer ps pf) _ pids0 ?_ ?_ ?_ ?_
      · rw [updatePlayer_map_id, hmap]
      · intro q hq
        rcases mem_updatePlayer ps pf q hq with rfl | ⟨hq2, _⟩
        · exact pipeline_damage env now dt obstacles ps pid p (hdmg p hpmem)
        · exact hdmg q hq2
      · intro q hq
        rcases mem_updatePlayer ps pf q hq with rfl | ⟨hq2, hne⟩
        · exact Or.inr (pipeline_strongInv env now dt obstacles ps pid p)
        · rcases hstr q hq2 with h | h
          · rcases List.mem_cons.1 h with h' | h'
            · exact absurd h' (by rw [hfid, hpid] at hne; exact hne)
            · exact Or.inl h'
          · exact Or.inr h
      · intro b hb
        rcases List.mem_append.1 hb with hb' | hb'
        · exact hbul b hb'
        · obtain ⟨hb1, hb2⟩ := pipeline_bullets env now dt obstacles ps pid p b hb'
          refine ⟨by rw [hb1]; exact hdmg p hpmem, ?_⟩
          rw [hb2, hpid, ← hmap]
          rw [← hpid]
          exact List.mem_map_of_mem Player.id hpmem

lemma canonLoopF_hp (n : ℕ) : ∀ (c : List Client) (p : Player),
    (canonLoopF n c p).1.hp = p.hp ∧ (canonLoopF n c p).1.maxHp = p.maxHp ∧
    (canonLoopF n c p).1.id = p.id := by
  induction n with
  | zero => exact fun c p => ⟨rfl, rfl, rfl⟩
  | succ n ih =>
    intro c p
    by_cases h : p.xpToLevel ≤ p.xp
    · simp only [canonLoopF, if_pos h]
      obtain ⟨h1, h2, h3⟩ := ih c (levelUpIter p)
      exact ⟨by rw [h1, levelUpIter_hp], by rw [h2, levelUpIter_maxHp],
        by rw [h3, levelUpIter_id]⟩
    · simp only [canonLoopF, if_neg h]
      exact ⟨by trivial, by trivial, by trivial⟩

lemma addXP_hp (c : List Client) (p : Player) (g : ℚ) :
    (addXPAndCheckLevel c p g).1.hp = p.hp ∧
    (addXPAndCheckLevel c p g).1.maxHp = p.maxHp ∧
    (addXPAndCheckLevel c p g).1.id = p.id := by
  unfold addXPAndCheckLevel runLevelLoop
  by_cases h : ({ p with xp := p.xp + g } : Player).xpToLevel ≤
      ({ p with xp := p.xp + g } : Player).xp
  · simp only [if_pos h]
    obtain ⟨h1, h2, h3⟩ := canonLoopF_hp _ c (levelUpIter { p with xp := p.xp + g })
    exact ⟨by rw [h1, levelUpIter_hp], by rw [h2, levelUpIter_maxHp],
      by rw [h3, levelUpIter_id]⟩
  · simp only [if_neg h]
    exact ⟨by trivial, by trivial, by trivial⟩

lemma rewardOwner_facts (env : Env) (oid : ℕ) (o : Obstacle) (ps : List Player) :
    (rewardOwner env oid o ps).1.map Player.id = ps.map Player.id ∧
    ∀ q ∈ (rewardOwner env oid o ps).1,
      q ∈ ps ∨ ∃ w ∈ ps, q.hp = w.hp ∧ q.maxHp = w.maxHp := by
  rw [rewardOwner_eq_straight]
  unfold rewardOwnerStraight
  cases hf : findPlayer ps oid with
  | none => exact ⟨rfl, fun q hq => Or.inl hq⟩
  | some owner =>
    simp only
    obtain ⟨hmem, _⟩ := findPlayer_eq_some hf
    obtain ⟨hp1, hp2, _⟩ := addXP_hp env.clients
      { owner with score := owner.score + (obstacleReward o.shape).1 }
      (obstacleReward o.shape).2
    refine ⟨updatePlayer_map_id _ _, fun q hq => ?_⟩
    rcases mem_updatePlayer _ _ q hq with rfl | ⟨hq2, _⟩
    · exact Or.inr ⟨owner, hmem, hp1, hp2⟩
    · exact Or.inl hq2

lemma bulletVsObstacles_facts (env : Env) (b : Bullet) (ps : List Player)
    (ts : List (ℕ × ℚ)) : ∀ os : List Obstacle,
    (bulletVsObstacles env b ps ts os).players.map Player.id = ps.map Player.id ∧
    ∀ q ∈ (bulletVsObstacles env b ps ts os).players,
      q ∈ ps ∨ ∃ w ∈ ps, q.hp = w.hp ∧ q.maxHp = w.maxHp := by
  intro os
  induction os with
  | nil => exact ⟨rfl, fun q hq => Or.inl hq⟩
  | cons o rest ih =>
    unfold bulletVsObstacles
    by_cases h1 : pointInObstacle b.x b.y o
    · rw [if_pos h1]
      by_cases h2 : o.hp ≤ 0
      · simp only [if_pos h2]
        exact ih
      · simp only [if_neg h2]
        by_cases h3 : o.hp - b.damage ≤ 0
        · simp only [if_pos h3]
          exact rewardOwner_facts env b.ownerId o ps
        · simp only [if_neg h3]
          exact ⟨by trivial, fun q hq => Or.inl hq⟩
    · rw [if_neg h1]
      simp only
      exact ih

lemma findVictim_eq_some {env : Env} {b : Bullet} {ps : List Player} {v : Player}
    (h : findVictim env b ps = some v) : v ∈ ps ∧ v.id ≠ b.ownerId := by
  unfold findVictim at h
  refine ⟨List.mem_of_find?_eq_some h, ?_⟩
  have := List.find?_some h
  exact (of_decide_eq_true this).1

lemma bulletVsPlayers_facts (env : Env) (b : Bullet) (ps : List Player)
    (hd : 0 ≤ b.damage) (hown : b.ownerId ∈ ps.map Player.id)
    (hstr : ∀ q ∈ ps, 0 < q.hp ∧ q.hp ≤ q.maxHp) :
    (bulletVsPlayers env b ps).players.map Player.id = ps.map Player.id ∧
    ∀ q ∈ (bulletVsPlayers env b ps).players, 0 < q.hp ∧ q.hp ≤ q.maxHp := by
  unfold bulletVsPlayers
  cases hv : findVictim env b ps with
  | none => exact ⟨rfl, hstr⟩
  | some v =>
    obtain ⟨hvmem, hvne⟩ := findVictim_eq_some hv
    simp only
    have hmap1 : (updatePlayer ps { v with hp := v.hp - b.damage }).map Player.id
        = ps.map Player.id := updatePlayer_map_id _ _
    by_cases hdead : ({ v with hp := v.hp - b.damage } : Player).hp ≤ 0
    · rw [if_pos hdead]
      have hown' : b.ownerId ∈ (updatePlayer ps { v with hp := v.hp - b.damage }).map Player.id := by
        rw [hmap1]; exact hown
      obtain ⟨owner, howner⟩ := findPlayer_of_mem_map hown'
      obtain ⟨hownmem, hownid⟩ := findPlayer_eq_some howner
      rw [howner]
      simp only
      have howner_ps : owner ∈ ps ∧ owner.hp = owner.hp := by
        rcases mem_updatePlayer _ _ owner hownmem with rfl | ⟨h2, _⟩
        · exact absurd hownid (by simpa using hvne)
        · exact ⟨h2, rfl⟩
      have hrs := resetPlayer_fields env ({ v with hp := v.hp - b.damage } : Player)
      obtain ⟨ha1, ha2, ha3⟩ := addXP_hp env.clients
        { owner with score := owner.score + max 5 (jsFloor (({ v with hp := v.hp - b.damage } : Player).score * 0.5)) }
        (max 60 (jsFloor ((({ v with hp := v.hp - b.damage } : Player).level : ℚ) * 10 * 0.5)))
      constructor
      · rw [updatePlayer_map_id, updatePlayer_map_id, hmap1]
      · intro q hq
        rcases mem_updatePlayer _ _ q hq with rfl | ⟨hq2, hne⟩
        · rw [hrs.1, hrs.2.1]
          norm_num
        · rcases mem_updatePlayer _ _ q hq2 with rfl | ⟨hq3, hne2⟩
          · obtain ⟨hps, _⟩ := howner_ps
            obtain ⟨h1, h2⟩ := hstr owner hps
            rw [ha1, ha2]
            exact ⟨h1, h2⟩
          · rcases mem_updatePlayer _ _ q hq3 with rfl | ⟨hq4, hne3⟩
            · exact absurd (hrs.2.2.1.symm) hne
            · exact hstr q hq4
    · rw [if_neg hdead]
      refine ⟨hmap1, fun q hq => ?_⟩
      rcases mem_updatePlayer _ _ q hq with rfl | ⟨hq2, _⟩
      · obtain ⟨h1, h2⟩ := hstr v hvmem
        refine ⟨lt_of_not_le hdead, ?_⟩
        show v.hp - b.damage ≤ v.maxHp
        linarith
      · exact hstr q hq2

lemma bulletStep_facts (env : Env) (dt : ℚ) (acc : BAcc) (b : Bullet)
    (pids0 : List ℕ)
    (hmap : acc.players.map Player.id = pids0)
    (hstr : ∀ q ∈ acc.players, 0 < q.hp ∧ q.hp ≤ q.maxHp)
    (hb : 0 ≤ b.damage ∧ b.ownerId ∈ pids0) :
    (bulletStep env dt acc b).players.map Player.id = pids0 ∧
    ∀ q ∈ (bulletStep env dt acc b).players, 0 < q.hp ∧ q.hp ≤ q.maxHp := by
  simp only [bulletStep]
  by_cases h1 : (moveBullet dt b).life ≤ 0
  · rw [if_pos h1]
    exact ⟨hmap, hstr⟩
  · rw [if_neg h1]
    obtain ⟨ho1, ho2⟩ := bulletVsObstacles_facts env (moveBullet dt b) acc.players
      acc.timers acc.obstacles
    by_cases h2 : (bulletVsObstacles env (moveBullet dt b) acc.players acc.timers
        acc.obstacles).hit
    · simp only [if_pos h2]
      refine ⟨by rw [ho1, hmap], fun q hq => ?_⟩
      rcases ho2 q hq with h | ⟨w, hw, hw1, hw2⟩
      · exact hstr q h
      · obtain ⟨g1, g2⟩ := hstr w hw
        rw [hw1, hw2]
        exact ⟨g1, g2⟩
    · simp only [if_neg h2]
      obtain ⟨hp1, hp2⟩ := bulletVsPlayers_facts env (moveBullet dt b) acc.players
        hb.1 (by rw [hmap]; exact hb.2) hstr
      by_cases h3 : (bulletVsPlayers env (moveBullet dt b) acc.players).hit
      · simp only [if_pos h3]
        exact ⟨by rw [hp1, hmap], hp2⟩
      · simp only [if_neg h3]
        exact ⟨hmap, hstr⟩

lemma bulletFold_facts (env : Env) (dt : ℚ) :
    ∀ (bs : List Bullet) (acc : BAcc) (pids0 : List ℕ),
      acc.players.map Player.id = pids0 →
      (∀ q ∈ acc.players, 0 < q.hp ∧ q.hp ≤ q.maxHp) →
      (∀ b ∈ bs, 0 ≤ b.damage ∧ b.ownerId ∈ pids0) →
      ((bs.foldl (bulletStep env dt) acc).players.map Player.id = pids0 ∧
        ∀ q ∈ (bs.foldl (bulletStep env dt) acc).players, 0 < q.hp ∧ q.hp ≤ q.maxHp) := by
  intro bs
  induction bs with
  | nil => exact fun acc pids0 hmap hstr _ => ⟨hmap, hstr⟩
  | cons b rest ih =>
    intro acc pids0 hmap hstr hbs
    rw [List.foldl_cons]
    obtain ⟨h1, h2⟩ := bulletStep_facts env dt acc b pids0 hmap hstr
      (hbs b (List.mem_cons_self _ _))
    exact ih (bulletStep env dt acc b) pids0 h1 h2
      (fun b' hb' => hbs b' (List.mem_cons_of_mem _ hb'))

/-- C1 (amended): the movement step clamps the position into
`[0,3000] × [0,2000]` — but the later push-out steps can leave it outside
(see the counterexample) — and at the end of any tick every player
satisfies `0 ≤ hp ≤ maxHp`, provided every projectile carries
non-negative damage and a still-present owner and every player's damage
stat is non-negative. -/
theorem C1_hp_bounds_and_move_clamp :
    (∀ (env : Env) (dt : ℚ) (p : Player),
      0 ≤ (stepPlayerMove env dt p).x ∧ (stepPlayerMove env dt p).x ≤ WORLD_W ∧
      0 ≤ (stepPlayerMove env dt p).y ∧ (stepPlayerMove env dt p).y ≤ WORLD_H) ∧
    (∀ (env : Env) (now : ℚ) (w : World),
      (∀ q ∈ w.players, 0 ≤ q.damage) →
      (∀ b ∈ w.bullets, 0 ≤ b.damage ∧ b.ownerId ∈ w.players.map Player.id) →
      ∀ q ∈ (update env now w).1.players, 0 ≤ q.hp ∧ q.hp ≤ q.maxHp) := by
  constructor
  · intro env dt p
    refine ⟨le_max_left 0 _, ?_, le_max_left 0 _, ?_⟩
    · exact max_le (by norm_num [WORLD_W]) (min_le_left _ _)
    · exact max_le (by norm_num [WORLD_H]) (min_le_left _ _)
  · intro env now w hdmg hb q hq
    have hphase := phaseGo_master env now (min 0.1 (now - w.last)) w.obstacles
      (w.players.map Player.id) w.players [] (w.players.map Player.id) rfl hdmg
      (fun q' hq' => Or.inl (List.mem_map_of_mem _ hq'))
      (fun b' hb' => absurd hb' (List.not_mem_nil b'))
    obtain ⟨hmap, _, hstr, hbul⟩ := hphase
    have hall : ∀ b' ∈ (w.bullets ++
        (phaseGo env now (min 0.1 (now - w.last)) w.obstacles
          (w.players.map Player.id) w.players []).2).reverse,
        0 ≤ b'.damage ∧ b'.ownerId ∈ w.players.map Player.id := by
      intro b' hb'
      rw [List.mem_reverse, List.mem_append] at hb'
      rcases hb' with h | h
      · exact hb b' h
      · exact hbul b' h
    have hfold := bulletFold_facts env (min 0.1 (now - w.last))
      ((w.bullets ++ (phaseGo env now (min 0.1 (now - w.last)) w.obstacles
          (w.players.map Player.id) w.players []).2).reverse)
      { players := (phaseGo env now (min 0.1 (now - w.last)) w.obstacles
          (w.players.map Player.id) w.players []).1,
        obstacles := w.obstacles, timers := w.timers, keep := [], msgs := [] }
      (w.players.map Player.id) hmap hstr hall
    have hq' : q ∈ ((w.bullets ++ (phaseGo env now (min 0.1 (now - w.last)) w.obstacles
          (w.players.map Player.id) w.players []).2).reverse.foldl
        (bulletStep env (min 0.1 (now - w.last)))
        { players := (phaseGo env now (min 0.1 (now - w.last)) w.obstacles
            (w.players.map Player.id) w.players []).1,
          obstacles := w.obstacles, timers := w.timers, keep := [], msgs := [] }).players :=
      hq
    obtain ⟨g1, g2⟩ := hfold.2 q hq'
    exact ⟨le_of_lt g1, g2⟩

/-- The hexagonal obstacle of the C1 counterexample, enclosing the
world's right edge. -/
def hexO : Obstacle :=
  { id := 9, x := 2997, y := 996, shape := .hex 120, hp := 50, maxHp := 50 }

/-- The player of the C1 counterexample, standing on the world boundary
inside the hexagon's containment region. -/
def pzX : Player := { createPlayer 1 "z" 0 0 with x := 3000, y := 1000 }

/-- Oracle of the C1 counterexample: exact hypot values at the two
evaluated displacements (0,0) and (3,4). -/
def env1 : Env :=
  { oracleZero with hypot := fun x y => if x = 3 ∧ y = 4 then 5 else 0 }

/-- The C1 counterexample world: previous tick 1/20 s before `now = 10`. -/
def world1 : World :=
  { players := [pzX], bullets := [], obstacles := [hexO], timers := [], last := 199/20 }

/-- C1 counterexample: after one tick the hexagon push-out moves the
player to `x = 3003 > 3000` — the end-of-tick position is outside the
world bounds, refuting the claimed invariant.  The oracle is exact at
every point the run evaluates it (`hypot 3 4 = 5`, `hypot 0 0 = 0`). -/
theorem C1_cex :
    (update env1 10 world1).1.players.map Player.x = [3003] ∧
    WORLD_W < 3003 ∧
    (env1.hypot 3 4) ^ 2 = 3 ^ 2 + 4 ^ 2 ∧ 0 ≤ env1.hypot 3 4 ∧
    env1.hypot 0 0 = 0 := by
  decide

/-- The end-of-tick player of the C1 witness run. -/
def pzOut : Player := { createPlayer 1 "z" 0 0 with x := 3003, y := 1004, hp := 494/5 }

/-- Witness for C1's amended statement: the movement clamp at a concrete
input, and the hp bound at the end of the concrete counterexample tick. -/
theorem C1_witness :
    (0 ≤ (stepPlayerMove env1 (1/20) pzX).x ∧
      (stepPlayerMove env1 (1/20) pzX).x ≤ WORLD_W ∧
      0 ≤ (stepPlayerMove env1 (1/20) pzX).y ∧
      (stepPlayerMove env1 (1/20) pzX).y ≤ WORLD_H) ∧
    (0 ≤ pzOut.hp ∧ pzOut.hp ≤ pzOut.maxHp) :=
  ⟨C1_hp_bounds_and_move_clamp.1 env1 (1/20) pzX,
    C1_hp_bounds_and_move_clamp.2 env1 10 world1 (by decide) (by decide) pzOut (by decide)⟩

end DeepTank
